import Mathlib

/-!
# OneFlow chat widget: applying a workflow to the canvas

A shallow embedding of the workflow application code of
`src/web_extensions/chat_widget.js` (methods `executeWorkflow`,
`applyWorkflowToCanvas`, `addNodeToCanvas`, `linkNodesOnCanvas`,
`findExistingNodeById`, `getNextAvailableNodeId`, `setNodeParam`,
`arrangeNodes`), followed by theorems about it.

JavaScript objects are mutable and shared by reference. Here the graph owns
its nodes in the list `Graph.nodes`, and a node reference (the value stored in
`nodeMap`, the result of `findExistingNodeById`) is the position of the node in
that list. The code only ever appends nodes, so a position keeps denoting the
same node for the whole call.

Numbers are integers held in doubles: the two sums of the code, `maxId + 1`
(line 486) and `nextNodeId + index` (line 290), are rounded as double arithmetic
rounds them (`toDouble`), which leaves every sum up to `2^53` as it is.
`console.log` diagnostics are not part of the state, `console.error` and
`console.warn` calls are.
-/

namespace OneFlow

/-! ## Data model -/

/-- A JSON value carried by a parameter. -/
inductive Value where
  | null
  | bool (b : Bool)
  | num (n : Int)
  | str (s : String)
  deriving DecidableEq, Repr

/-- The identity `node.id` of a node. LiteGraph numbers nodes with integers:
`num n` is the number `n`, an integer that a double holds (every integer up to
`2^53` in absolute value is one) and that `String` prints in plain digits (one
below `10^21` in absolute value); `other s` is an identity that is not a number
(such as a UUID string `s`), one of which `isNaN` holds. -/
inductive NodeId where
  | num (n : Int)
  | other (s : String)
  deriving DecidableEq, Repr

/-- The string `String(node.id)`. -/
def NodeId.toStr : NodeId → String
  | .num n => toString n
  | .other s => s

/-- The test `node.id && !isNaN(node.id)` of `getNextAvailableNodeId`, together
with the value `parseInt(node.id)` when it passes. The number zero is falsy. -/
def NodeId.parsed : NodeId → Option Int
  | .num n => if n = 0 then none else some n
  | .other _ => none

/-- A settable field of a node (an entry of `node.widgets`). -/
structure Widget where
  name : String
  value : Value
  deriving DecidableEq, Repr

/-- A node of the host graph. `title` is the string `String(node.title)`;
`widgets` is `none` when the node has no `widgets` array; `inputs` and
`outputs` list the slot names in slot order. -/
structure Node where
  id : NodeId
  type : String
  title : String
  pos : Int × Int
  widgets : Option (List Widget)
  inputs : List String
  outputs : List String
  deriving DecidableEq, Repr

/-- A directed connection: output slot `origin_slot` of the node at position
`origin` feeds input slot `target_slot` of the node at position `target`. -/
structure Link where
  origin : Nat
  origin_slot : Nat
  target : Nat
  target_slot : Nat
  deriving DecidableEq, Repr

/-- The host graph `app.graph`: its nodes (`app.graph.nodes`) and connections. -/
structure Graph where
  nodes : List Node
  links : List Link
  deriving DecidableEq, Repr

/-- Severity of a console call. -/
inductive Level where
  | error
  | warn
  deriving DecidableEq, Repr

/-- Everything the methods read and write. `graph` is `none` when `app` is
undefined or `app.graph` is absent. `console` records the `console.error` and
`console.warn` calls, `messages` the `addMessage` calls (role and text), both
in call order. `arrangeCalls` is a ghost counter of the evaluations of
`app.graph.arrange()`. -/
structure World where
  graph : Option Graph
  console : List (Level × String)
  messages : List (String × String)
  arrangeCalls : Nat
  deriving DecidableEq, Repr

/-- A JavaScript `Map` with string keys, as a list of bindings, newest first. -/
structure JsMap (α : Type) where
  entries : List (String × α)
  deriving DecidableEq, Repr

/-- The map `new Map()`. -/
def JsMap.empty {α : Type} : JsMap α := ⟨[]⟩

/-- The lookup `Map.prototype.get` on a list of bindings. -/
def JsMap.getEntries {α : Type} : List (String × α) → String → Option α
  | [], _ => none
  | (k, v) :: rest, key => if k = key then some v else JsMap.getEntries rest key

/-- The lookup `Map.prototype.get`: the newest binding of the key. -/
def JsMap.get {α : Type} (m : JsMap α) (key : String) : Option α :=
  JsMap.getEntries m.entries key

/-- The update `Map.prototype.set`: a new binding that hides any older one. -/
def JsMap.set {α : Type} (m : JsMap α) (key : String) (v : α) : JsMap α :=
  ⟨(key, v) :: m.entries⟩

/-- The field `position` of the parameters of an `add_node` operation. -/
structure Position where
  x : Int
  y : Int
  deriving DecidableEq, Repr

/-- The `params` of an `add_node` operation. The field `node_id` is the role,
that is the node type. -/
structure AddNodeParams where
  node_id : String
  position : Option Position
  node_params : Option (List (String × Value))
  deriving DecidableEq, Repr

/-- The `params` of a `link_node` operation. -/
structure LinkNodeParams where
  source_node_id : String
  source_output : String
  target_node_id : String
  target_input : String
  deriving DecidableEq, Repr

/-- The `params` of a `set_param` operation. -/
structure SetParamParams where
  node_id : String
  param_name : String
  param_value : Value
  deriving DecidableEq, Repr

/-- An entry of `workflow.workflow`, by its field `operation`. -/
inductive Operation where
  | add_node (params : AddNodeParams)
  | link_node (params : LinkNodeParams)
  | set_param (params : SetParamParams)
  | unknown (operation : String)
  deriving DecidableEq, Repr

/-- Modelled from the spec: the host editor (LiteGraph) is not part of the
repository. `createNode` is `LiteGraph.createNode`, create-node-by-type, which
yields no node for a type the host cannot instantiate. `arrange` is the
best-effort auto-arrange `app.graph.arrange`, `none` when the host has no such
method; when present it gives the new position of the node at each position of
the node list. -/
structure Host where
  createNode : String → Option Node
  arrange : Option (Graph → Nat → Int × Int)

/-! ## Host primitives -/

/-- Modelled from the spec: add-node-to-graph (`app.graph.add`), absent from the
sources. The node is appended to the node list and keeps the identity it was
given. -/
def Graph.add (g : Graph) (node : Node) : Graph :=
  { g with nodes := g.nodes ++ [node] }

/-- Modelled from the spec: find a slot by exact name match
(`findOutputSlot`, `findInputSlot`), absent from the sources. The result is the
index of the first slot of that name, or `-1`. -/
def findSlot (slots : List String) (name : String) : Int :=
  if name ∈ slots then (slots.indexOf name : Int) else -1

/-- The call `node.findOutputSlot(name)` on the node at position `h`. -/
def Graph.findOutputSlot (g : Graph) (h : Nat) (name : String) : Int :=
  match g.nodes[h]? with
  | some node => findSlot node.outputs name
  | none => -1

/-- The call `node.findInputSlot(name)` on the node at position `h`. -/
def Graph.findInputSlot (g : Graph) (h : Nat) (name : String) : Int :=
  match g.nodes[h]? with
  | some node => findSlot node.inputs name
  | none => -1

/-- Modelled from the spec: `connect(output-slot, target-node, input-slot)`,
absent from the sources. It forms the directed connection; a slot may carry
several connections and they are not deduplicated. -/
def Graph.connect (g : Graph) (source : Nat) (outputSlot : Int) (target : Nat)
    (inputSlot : Int) : Graph :=
  { g with links := g.links ++ [⟨source, outputSlot.toNat, target, inputSlot.toNat⟩] }

/-- The layout computed by the host applied to every node: only `pos` changes. -/
def Graph.arranged (g : Graph) (layout : Graph → Nat → Int × Int) : Graph :=
  { g with nodes := g.nodes.enum.map fun kn => { kn.2 with pos := layout g kn.1 } }

/-! ## Small steps of the methods -/

/-- The call `console.error(text, ...)`. -/
def World.error (w : World) (text : String) : World :=
  { w with console := w.console ++ [(Level.error, text)] }

/-- The call `console.warn(text, ...)`. -/
def World.warn (w : World) (text : String) : World :=
  { w with console := w.console ++ [(Level.warn, text)] }

/-- The call `this.addMessage(role, text)`. -/
def World.addMessage (w : World) (role text : String) : World :=
  { w with messages := w.messages ++ [(role, text)] }

/-- The statement `widget = widgets.find(w => w.name === key)` followed by
`widget.value = value` when a widget was found: the first widget of that name
gets the value. -/
def setWidgetValue : List Widget → String → Value → List Widget
  | [], _, _ => []
  | w :: rest, key, value =>
    if w.name = key then { w with value := value } :: rest
    else w :: setWidgetValue rest key value

/-- The body of the `forEach` over `Object.entries(params.node_params)`
(lines 350 to 357) for one entry. -/
def applyNodeParam (node : Node) (entry : String × Value) : Node :=
  match node.widgets with
  | some ws => { node with widgets := some (setWidgetValue ws entry.1 entry.2) }
  | none => node

/-- The method `findExistingNodeById` on a node list, positions counted from
`start`: the first node whose `String(node.id)` or `String(node.title)` is the
searched string. -/
def findExistingFrom (start : Nat) : List Node → String → Option Nat
  | [], _ => none
  | node :: rest, searchId =>
    if node.id.toStr = searchId ∨ node.title = searchId then some start
    else findExistingFrom (start + 1) rest searchId

/-- The method `findExistingNodeById` (lines 447 to 472). -/
def findExistingNodeById (g : Graph) (nodeId : String) : Option Nat :=
  findExistingFrom 0 g.nodes nodeId

/-- The lookup written out three times, at lines 384 to 388, 394 to 398 and
497 to 500: `nodeMap.get(ref)`, and `findExistingNodeById(ref)` when the map has
no entry. -/
def resolveRef (nodeMap : JsMap Nat) (g : Graph) (ref : String) : Option Nat :=
  match nodeMap.get ref with
  | some h => some h
  | none => findExistingNodeById g ref

/-! ## The methods -/

/-- The number of times `a` must be halved to come below `2^53`: the doubles
around `a` are `2 ^ halvings fuel a` apart. The fuel bounds the recursion; `1024`
is enough for every double. -/
def halvings : Nat → Nat → Nat
  | 0, _ => 0
  | fuel + 1, a => if a < 9007199254740992 then 0 else halvings fuel (a / 2) + 1

/-- The double nearest to an integer, a tie going to the even significand: the
value that double arithmetic gives to a sum whose exact value is that integer.
The integers up to `2^53 = 9007199254740992` in absolute value are doubles
themselves; beyond, the integer is rounded to a multiple of the spacing of the
doubles around it. -/
def toDouble (x : Int) : Int :=
  if x.natAbs ≤ 9007199254740992 then x
  else
    let e := halvings 1024 x.natAbs
    let q := x.natAbs / 2 ^ e
    let r := x.natAbs % 2 ^ e
    let q2 :=
      if 2 * r < 2 ^ e then q
      else if 2 ^ e < 2 * r then q + 1
      else if q % 2 = 0 then q
      else q + 1
    Int.sign x * ((q2 * 2 ^ e : Nat) : Int)

/-- The method `getNextAvailableNodeId` (lines 474 to 487); the sum `maxId + 1`
is a sum of doubles. -/
def getNextAvailableNodeId (w : World) : Int :=
  match w.graph with
  | none => 1
  | some g =>
    toDouble ((g.nodes.foldl
      (fun maxId node =>
        match node.id.parsed with
        | some n => max maxId n
        | none => maxId)
      0) + 1)

/-- The node that `addNodeToCanvas` hands to `app.graph.add` (lines 340 to 358):
the created node with its position set, its identity assigned when one is
provided, and the entries of `params.node_params` applied to its widgets. -/
def buildNode (params : AddNodeParams) (assignedNodeId : Option Int) (created : Node) : Node :=
  let position := params.position.getD ⟨100, 100⟩
  let node := { created with pos := (position.x, position.y) }
  let node :=
    match assignedNodeId with
    | some i => { node with id := NodeId.num i }
    | none => node
  match params.node_params with
  | some entries => entries.foldl applyNodeParam node
  | none => node

/-- The method `addNodeToCanvas` (lines 325 to 373). It returns the world and
the node map after the call. -/
def addNodeToCanvas (host : Host) (params : AddNodeParams) (nodeMap : JsMap Nat)
    (assignedNodeId : Option Int) (w : World) : World × JsMap Nat :=
  match w.graph with
  | none => (w, nodeMap)
  | some g =>
    let nodeType := params.node_id
    match host.createNode nodeType with
    | none => (w.error "Failed to create node:", nodeMap)
    | some created =>
      let node := buildNode params assignedNodeId created
      let h := g.nodes.length
      ({ w with graph := some (g.add node) },
        (nodeMap.set nodeType h).set node.id.toStr h)

/-- The method `linkNodesOnCanvas` (lines 375 to 445). -/
def linkNodesOnCanvas (params : LinkNodeParams) (nodeMap : JsMap Nat) (w : World) : World :=
  match w.graph with
  | none => w
  | some g =>
    match resolveRef nodeMap g params.source_node_id,
        resolveRef nodeMap g params.target_node_id with
    | some sourceNode, some targetNode =>
      let outputSlot := g.findOutputSlot sourceNode params.source_output
      let inputSlot := g.findInputSlot targetNode params.target_input
      if outputSlot ≠ -1 ∧ inputSlot ≠ -1 then
        { w with graph := some (g.connect sourceNode outputSlot targetNode inputSlot) }
      else
        w.error "Could not find slots for connection:"
    | _, _ => w.error "Source or target node not found for linking:"

/-- The method `setNodeParam` (lines 489 to 521). A reference stored in the
node map always denotes a node of the graph; for a position outside the node
list nothing happens. -/
def setNodeParam (params : SetParamParams) (nodeMap : JsMap Nat) (w : World) : World :=
  match w.graph with
  | none => w
  | some g =>
    match resolveRef nodeMap g params.node_id with
    | none => w.error "Node not found for set_param:"
    | some h =>
      match g.nodes[h]? with
      | none => w
      | some node =>
        match node.widgets with
        | none => w
        | some ws =>
          match ws.find? (fun widget => widget.name = params.param_name) with
          | some _ =>
            let updated : Node :=
              { node with widgets := some (setWidgetValue ws params.param_name params.param_value) }
            { w with graph := some { g with nodes := g.nodes.set h updated } }
          | none => w.error "Widget not found:"

/-- The method `arrangeNodes` (lines 523 to 532). -/
def arrangeNodes (host : Host) (w : World) : World :=
  match w.graph with
  | none => w
  | some g =>
    match host.arrange with
    | some layout =>
      { w with graph := some (g.arranged layout), arrangeCalls := w.arrangeCalls + 1 }
    | none =>
      { w.warn "Auto-arrange not available" with arrangeCalls := w.arrangeCalls + 1 }

/-- The filter `operations.filter(op => op.operation === 'add_node')` (line 283),
keeping the parameters of each operation. -/
def addNodeOps (operations : List Operation) : List AddNodeParams :=
  operations.filterMap fun op =>
    match op with
    | .add_node params => some params
    | _ => none

/-- The identity `assignedId = nextNodeId + index` of line 290, a sum of
doubles. -/
def assignedIdAt (nextNodeId : Int) (index : Nat) : Int :=
  toDouble (nextNodeId + index)

/-- The `forEach` of lines 288 to 293 from index `index` on:
`nodeTypeToId.set(op.params.node_id, nextNodeId + index)`. -/
def assignFrom (nextNodeId : Int) : Nat → List AddNodeParams → JsMap Int → JsMap Int
  | _, [], nodeTypeToId => nodeTypeToId
  | index, op :: rest, nodeTypeToId =>
    assignFrom nextNodeId (index + 1) rest
      (nodeTypeToId.set op.node_id (assignedIdAt nextNodeId index))

/-- The map `nodeTypeToId` after the first pass (lines 283 to 293). -/
def buildNodeTypeToId (w : World) (operations : List Operation) : JsMap Int :=
  assignFrom (getNextAvailableNodeId w) 0 (addNodeOps operations) JsMap.empty

/-- The body of the `forEach` of lines 296 to 312 for one operation. -/
def applyOperation (host : Host) (nodeTypeToId : JsMap Int) (st : World × JsMap Nat)
    (operation : Operation) : World × JsMap Nat :=
  match operation with
  | .add_node params =>
    addNodeToCanvas host params st.2 (nodeTypeToId.get params.node_id) st.1
  | .link_node params => (linkNodesOnCanvas params st.2 st.1, st.2)
  | .set_param params => (setNodeParam params st.2 st.1, st.2)
  | .unknown _ => (st.1.warn "Unknown operation:", st.2)

/-- The `forEach` of lines 296 to 312 over a list of operations. -/
def runOperations (host : Host) (nodeTypeToId : JsMap Int) (operations : List Operation)
    (st : World × JsMap Nat) : World × JsMap Nat :=
  operations.foldl (applyOperation host nodeTypeToId) st

/-- The method `applyWorkflowToCanvas` (lines 277 to 323). No step of the
embedding throws, so the `catch` branch is not taken. -/
def applyWorkflowToCanvas (host : Host) (operations : List Operation) (w : World) : World :=
  let nodeTypeToId := buildNodeTypeToId w operations
  let st := runOperations host nodeTypeToId operations (w, JsMap.empty)
  (arrangeNodes host st.1).addMessage "assistant"
    "Workflow has been applied to the canvas! You can now execute it or modify the nodes as needed."

/-- The method `executeWorkflow` (lines 257 to 275); `none` is a workflow
object that is missing or has no `workflow` field. -/
def executeWorkflow (host : Host) (workflow : Option (List Operation)) (w : World) : World :=
  match workflow with
  | none => w.error "Invalid workflow data"
  | some operations =>
    match w.graph with
    | some _ => applyWorkflowToCanvas host operations w
    | none =>
      (w.warn "ComfyUI app not available, workflow cannot be applied to canvas").addMessage
        "assistant"
        "Workflow generated but cannot be applied to canvas. Please ensure ComfyUI is fully loaded."

/-- The identities handed to `addNodeToCanvas` (line 300 and 301), one for each
`add_node` operation of the list, in list order. -/
def assignedIds (w : World) (operations : List Operation) : List (Option Int) :=
  (addNodeOps operations).map fun params =>
    (buildNodeTypeToId w operations).get params.node_id

/-! ## Sample hosts and graphs, used to instantiate the theorems -/

/-- A node as a sample host creates it: identity `-1`, placed at the origin,
with one widget `seed`. -/
def sampleNode (type title : String) (inputs outputs : List String) : Node :=
  { id := NodeId.num (-1), type := type, title := title, pos := (0, 0),
    widgets := some [⟨"seed", Value.num 0⟩], inputs := inputs, outputs := outputs }

/-- A host with the node types `LoadImage` and `SaveImage` and no auto-arrange. -/
def sampleHost : Host :=
  { createNode := fun type =>
      if type = "LoadImage" then some (sampleNode "LoadImage" "Load Image" ["image"] ["IMAGE", "MASK"])
      else if type = "SaveImage" then some (sampleNode "SaveImage" "Save Image" ["images"] [])
      else none
    arrange := none }

/-- A host whose node type `A` carries the title `B`. -/
def titledHost : Host :=
  { createNode := fun type =>
      if type = "A" then some (sampleNode "A" "B" ["in"] ["out"])
      else if type = "B" then some (sampleNode "B" "B" ["in"] ["out"])
      else none
    arrange := none }

/-- A loaded editor with an empty graph. -/
def emptyWorld : World :=
  { graph := some ⟨[], []⟩, console := [], messages := [], arrangeCalls := 0 }

/-- A graph with a `LoadImage` node of identity `1` and a `SaveImage` node of
identity `2`, not connected. -/
def imageGraph : Graph :=
  { nodes := [{ sampleNode "LoadImage" "Load Image" ["image"] ["IMAGE", "MASK"] with
                id := NodeId.num 1 },
              { sampleNode "SaveImage" "Save Image" ["images"] [] with id := NodeId.num 2 }],
    links := [] }

/-- A loaded editor showing `imageGraph`. -/
def imageWorld : World :=
  { graph := some imageGraph, console := [], messages := [], arrangeCalls := 0 }

/-- A graph with two nodes of the same title `Foo`, of identities `41` and `42`. -/
def fooGraph : Graph :=
  { nodes := [{ sampleNode "LoadImage" "Foo" [] [] with id := NodeId.num 41 },
              { sampleNode "SaveImage" "Foo" [] [] with id := NodeId.num 42 }],
    links := [] }

/-- A host whose node type `DualSampler` has two widgets named
`control_after_generate`, one after each seed widget. -/
def twinHost : Host :=
  { createNode := fun type =>
      if type = "DualSampler" then
        some { id := NodeId.num (-1), type := "DualSampler", title := "Dual Sampler",
               pos := (0, 0),
               widgets := some [⟨"seed", Value.num 0⟩,
                                ⟨"control_after_generate", Value.str "randomize"⟩,
                                ⟨"noise_seed", Value.num 0⟩,
                                ⟨"control_after_generate", Value.str "randomize"⟩],
               inputs := [], outputs := ["LATENT"] }
      else none
    arrange := none }

/-- A loaded editor whose graph has one node, of identity `2^53`. -/
def hugeWorld : World :=
  { graph := some { nodes := [{ sampleNode "LoadImage" "Load Image" ["image"] ["IMAGE", "MASK"]
                                with id := NodeId.num 9007199254740992 }],
                    links := [] },
    console := [], messages := [], arrangeCalls := 0 }

/-- A loaded editor whose graph has one node, of identity `2^53 - 1`. -/
def edgeWorld : World :=
  { graph := some { nodes := [{ sampleNode "LoadImage" "Load Image" ["image"] ["IMAGE", "MASK"]
                                with id := NodeId.num 9007199254740991 }],
                    links := [] },
    console := [], messages := [], arrangeCalls := 0 }

/-- An editor that is not loaded: `app.graph` is absent. -/
def unloadedWorld : World :=
  { graph := none, console := [], messages := [], arrangeCalls := 0 }

/-- A loaded editor whose graph has one node, of identity `7` and title `Note`,
that has no `widgets` array. -/
def noteWorld : World :=
  { graph := some { nodes := [{ id := NodeId.num 7, type := "Note", title := "Note",
                                pos := (0, 0), widgets := none, inputs := [], outputs := [] }],
                    links := [] },
    console := [], messages := [], arrangeCalls := 0 }

/-! ## Relations used to state the theorems -/

/-- Every node of `g` is still at its position in `g2`, with the same identity,
title, type and slots; its widget values and its place on the canvas may
differ, and `g2` may have further nodes after those of `g`. -/
def Graph.Extends (g g2 : Graph) : Prop :=
  g.nodes.length ≤ g2.nodes.length ∧
  ∀ (h : Nat) (n : Node), g.nodes[h]? = some n →
    ∃ n2 : Node, g2.nodes[h]? = some n2 ∧ n2.id = n.id ∧ n2.title = n.title ∧ n2.type = n.type ∧
      n2.inputs = n.inputs ∧ n2.outputs = n.outputs

/-- The position of the widget that `widgets.find(w => w.name === key)` selects:
the first widget of that name, or the number of widgets when there is none. -/
def widgetIndex (ws : List Widget) (key : String) : Nat :=
  (ws.map Widget.name).indexOf key

/-- A layout that leaves every node where it is: an auto-arrange that does
nothing. -/
def keepLayout (g : Graph) (k : Nat) : Int × Int :=
  match g.nodes[k]? with
  | some node => node.pos
  | none => (0, 0)

/-- The message that `applyWorkflowToCanvas` adds at the end of the `try` block
(line 317). -/
def appliedMessage : String × String :=
  ("assistant",
    "Workflow has been applied to the canvas! You can now execute it or modify the nodes as needed.")

/-! ## Lemmas on the host primitives and the lookups -/

theorem findSlot_eq_neg_one_iff (slots : List String) (name : String) :
    findSlot slots name = -1 ↔ name ∉ slots := by
  unfold findSlot
  by_cases h : name ∈ slots
  · simp only [h, if_true, not_true_eq_false, iff_false]
    intro hc
    have : (0 : Int) ≤ (slots.indexOf name : Int) := Int.ofNat_nonneg _
    omega
  · simp [h]

theorem findSlot_of_mem (slots : List String) (name : String) (h : name ∈ slots) :
    ∃ i : Nat, findSlot slots name = (i : Int) ∧ slots[i]? = some name := by
  refine ⟨slots.indexOf name, by simp [findSlot, h], ?_⟩
  have hlt : slots.indexOf name < slots.length := List.indexOf_lt_length.mpr h
  rw [List.getElem?_eq_getElem hlt]
  simp

theorem findExistingFrom_some (nodes : List Node) (s : String) :
    ∀ (start h : Nat), findExistingFrom start nodes s = some h →
      start ≤ h ∧ (∃ n, nodes[h - start]? = some n ∧ (n.id.toStr = s ∨ n.title = s)) ∧
      ∀ k n, k < h - start → nodes[k]? = some n → ¬ (n.id.toStr = s ∨ n.title = s) := by
  induction nodes with
  | nil => intro start h hf; simp [findExistingFrom] at hf
  | cons node rest ih =>
    intro start h hf
    unfold findExistingFrom at hf
    by_cases hm : node.id.toStr = s ∨ node.title = s
    · rw [if_pos hm] at hf
      have : start = h := by simpa using hf
      subst this
      refine ⟨le_refl _, ⟨node, by simp, hm⟩, ?_⟩
      intro k n hk
      omega
    · rw [if_neg hm] at hf
      obtain ⟨hle, ⟨n, hn, hmatch⟩, hearlier⟩ := ih (start + 1) h hf
      have hsub : h - start = (h - (start + 1)) + 1 := by omega
      refine ⟨by omega, ⟨n, ?_, hmatch⟩, ?_⟩
      · rw [hsub]; simpa using hn
      · intro k m hk hkm
        cases k with
        | zero =>
          have : node = m := by simpa using hkm
          subst this
          exact hm
        | succ k =>
          exact hearlier k m (by omega) (by simpa using hkm)

theorem findExistingFrom_none (nodes : List Node) (s : String) :
    ∀ start : Nat, findExistingFrom start nodes s = none ↔
      ∀ n ∈ nodes, ¬ (n.id.toStr = s ∨ n.title = s) := by
  induction nodes with
  | nil => intro start; simp [findExistingFrom]
  | cons node rest ih =>
    intro start
    unfold findExistingFrom
    by_cases hm : node.id.toStr = s ∨ node.title = s
    · rw [if_pos hm]
      simp only [List.mem_cons, forall_eq_or_imp]
      constructor
      · intro hc; cases hc
      · intro hc; exact absurd hm hc.1
    · rw [if_neg hm, ih (start + 1)]
      simp only [List.mem_cons, forall_eq_or_imp]
      exact ⟨fun h => ⟨hm, h⟩, fun h => h.2⟩

theorem findExistingFrom_first (nodes : List Node) (s : String) :
    ∀ (start h : Nat) (n : Node), nodes[h]? = some n → (n.id.toStr = s ∨ n.title = s) →
      (∀ k m, k < h → nodes[k]? = some m → ¬ (m.id.toStr = s ∨ m.title = s)) →
      findExistingFrom start nodes s = some (start + h) := by
  induction nodes with
  | nil => intro start h n hn; simp at hn
  | cons node rest ih =>
    intro start h n hn hmatch hearlier
    unfold findExistingFrom
    cases h with
    | zero =>
      have : node = n := by simpa using hn
      subst this
      rw [if_pos hmatch]; simp
    | succ h =>
      have hm : ¬ (node.id.toStr = s ∨ node.title = s) := hearlier 0 node (by omega) (by simp)
      rw [if_neg hm]
      have := ih (start + 1) h n (by simpa using hn) hmatch
        (fun k m hk hkm => hearlier (k + 1) m (by omega) (by simpa using hkm))
      rw [this]
      congr 1
      omega

/-! ## The starting identity -/

/-- The loop of `getNextAvailableNodeId` from an arbitrary running maximum. -/
theorem maxId_foldl_spec (nodes : List Node) :
    ∀ acc : Int,
      let r := nodes.foldl
        (fun maxId node =>
          match node.id.parsed with
          | some n => max maxId n
          | none => maxId) acc
      acc ≤ r ∧ (∀ node ∈ nodes, ∀ n, node.id.parsed = some n → n ≤ r) ∧
        (r = acc ∨ ∃ node ∈ nodes, node.id.parsed = some r) := by
  induction nodes with
  | nil => intro acc; simp
  | cons node rest ih =>
    intro acc
    simp only [List.foldl_cons]
    cases hp : node.id.parsed with
    | none =>
      obtain ⟨h1, h2, h3⟩ := ih acc
      refine ⟨h1, ?_, ?_⟩
      · intro nd hnd n hn
        rcases List.mem_cons.mp hnd with rfl | hmem
        · rw [hp] at hn; cases hn
        · exact h2 nd hmem n hn
      · rcases h3 with h3 | ⟨nd, hnd, hpar⟩
        · exact Or.inl h3
        · exact Or.inr ⟨nd, List.mem_cons_of_mem _ hnd, hpar⟩
    | some v =>
      obtain ⟨h1, h2, h3⟩ := ih (max acc v)
      refine ⟨le_trans (le_max_left _ _) h1, ?_, ?_⟩
      · intro nd hnd n hn
        rcases List.mem_cons.mp hnd with rfl | hmem
        · rw [hp] at hn
          have : v = n := by simpa using hn
          subst this
          exact le_trans (le_max_right _ _) h1
        · exact h2 nd hmem n hn
      · rcases h3 with h3 | ⟨nd, hnd, hpar⟩
        · rcases max_choice acc v with hm | hm
          · left; rw [h3, hm]
          · right
            refine ⟨node, List.mem_cons_self _ _, ?_⟩
            rw [hp, h3, hm]
        · exact Or.inr ⟨nd, List.mem_cons_of_mem _ hnd, hpar⟩

theorem toDouble_of_natAbs_le (x : Int) (h : x.natAbs ≤ 9007199254740992) : toDouble x = x := by
  unfold toDouble
  rw [if_pos h]

theorem halvings_pow_le (fuel : Nat) : ∀ a : Nat, 1 ≤ a → 2 ^ halvings fuel a ≤ a := by
  induction fuel with
  | zero => intro a ha; simpa [halvings] using ha
  | succ fuel ih =>
    intro a ha
    unfold halvings
    by_cases h : a < 9007199254740992
    · rw [if_pos h]; simpa using ha
    · rw [if_neg h]
      have h2 : 1 ≤ a / 2 := by omega
      have := ih (a / 2) h2
      rw [pow_succ]
      omega

theorem one_le_toDouble (x : Int) (hx : 1 ≤ x) : 1 ≤ toDouble x := by
  unfold toDouble
  by_cases h : x.natAbs ≤ 9007199254740992
  · rw [if_pos h]; exact hx
  · rw [if_neg h]
    simp only
    have ha : 1 ≤ x.natAbs := by omega
    have hpow := halvings_pow_le 1024 x.natAbs ha
    have hq : 1 ≤ x.natAbs / 2 ^ halvings 1024 x.natAbs :=
      Nat.div_pos hpow (Nat.two_pow_pos _)
    have hsign : Int.sign x = 1 := Int.sign_eq_one_of_pos (by omega)
    have hpos : 1 ≤ 2 ^ halvings 1024 x.natAbs := Nat.one_le_two_pow
    rw [hsign, one_mul]
    have hq2 : 1 ≤
        (if 2 * (x.natAbs % 2 ^ halvings 1024 x.natAbs) < 2 ^ halvings 1024 x.natAbs then
          x.natAbs / 2 ^ halvings 1024 x.natAbs
        else if 2 ^ halvings 1024 x.natAbs < 2 * (x.natAbs % 2 ^ halvings 1024 x.natAbs) then
          x.natAbs / 2 ^ halvings 1024 x.natAbs + 1
        else if x.natAbs / 2 ^ halvings 1024 x.natAbs % 2 = 0 then
          x.natAbs / 2 ^ halvings 1024 x.natAbs
        else x.natAbs / 2 ^ halvings 1024 x.natAbs + 1) := by
      split_ifs <;> omega
    exact_mod_cast Nat.mul_le_mul hq2 hpos

theorem one_le_getNextAvailableNodeId (w : World) : 1 ≤ getNextAvailableNodeId w := by
  cases hg : w.graph with
  | none => simp [getNextAvailableNodeId, hg]
  | some g =>
    have h1 := (maxId_foldl_spec g.nodes 0).1
    simp only [getNextAvailableNodeId, hg]
    exact one_le_toDouble _ (by omega)

theorem assignedIdAt_exact (nextNodeId : Int) (index : Nat) (h0 : 0 ≤ nextNodeId)
    (h : nextNodeId + index ≤ 9007199254740992) :
    assignedIdAt nextNodeId index = nextNodeId + index := by
  unfold assignedIdAt
  exact toDouble_of_natAbs_le _ (by omega)

/-- The starting identity within the range of exact sums. `getNextAvailableNodeId`
is at least `1`, and it is `1` when the host graph is absent, when the graph has
no node, and when no node has an integer identity. When every integer identity
of the graph is below `2^53`, it is `max(S ∪ {0}) + 1` for the set `S` of these
identities: strictly greater than every integer identity of the graph, and one
more than `0` or than an integer identity of the graph. -/
theorem getNextAvailableNodeId_below_bound (w : World) :
    1 ≤ getNextAvailableNodeId w ∧
    (w.graph = none → getNextAvailableNodeId w = 1) ∧
    (∀ g, w.graph = some g → g.nodes = [] → getNextAvailableNodeId w = 1) ∧
    (∀ g, w.graph = some g → (∀ node ∈ g.nodes, ∀ n, node.id ≠ NodeId.num n) →
      getNextAvailableNodeId w = 1) ∧
    ((∀ g node n, w.graph = some g → node ∈ g.nodes → node.id = NodeId.num n →
        n < 9007199254740992) →
      (∀ g node n, w.graph = some g → node ∈ g.nodes → node.id = NodeId.num n →
        n < getNextAvailableNodeId w) ∧
      (getNextAvailableNodeId w = 1 ∨
        ∃ g node, w.graph = some g ∧ node ∈ g.nodes ∧
          node.id = NodeId.num (getNextAvailableNodeId w - 1))) := by
  cases hg : w.graph with
  | none => simp [getNextAvailableNodeId, hg]
  | some g =>
    obtain ⟨h1, h2, h3⟩ := maxId_foldl_spec g.nodes 0
    obtain ⟨m, hm⟩ : ∃ m, m = g.nodes.foldl
        (fun maxId node =>
          match node.id.parsed with
          | some n => max maxId n
          | none => maxId) 0 := ⟨_, rfl⟩
    simp only [← hm] at h1 h2 h3
    have hval : getNextAvailableNodeId w = toDouble (m + 1) := by
      simp only [getNextAvailableNodeId, hg, hm]
    have hid_of_parsed : ∀ node : Node, node.id.parsed = some m → node.id = NodeId.num m := by
      intro node hpar
      cases hid : node.id with
      | num n =>
        rw [hid] at hpar
        have hpn : NodeId.parsed (NodeId.num n) = if n = 0 then none else some n := rfl
        rw [hpn] at hpar
        by_cases hn : n = 0
        · rw [if_pos hn] at hpar; cases hpar
        · rw [if_neg hn] at hpar
          injection hpar with hpar
          rw [hpar]
      | other s => rw [hid] at hpar; cases hpar
    have hone : toDouble ((0 : Int) + 1) = 1 := by decide
    rw [hval]
    refine ⟨one_le_toDouble _ (by omega), (by intro hc; cases hc), ?_, ?_, ?_⟩
    · intro g2 hg2 hnil
      have hgg : g = g2 := by simpa using hg2
      subst hgg
      rcases h3 with h3 | ⟨node, hmem, _⟩
      · rw [h3]; exact hone
      · rw [hnil] at hmem; cases hmem
    · intro g2 hg2 hnone
      have hgg : g = g2 := by simpa using hg2
      subst hgg
      rcases h3 with h3 | ⟨node, hmem, hpar⟩
      · rw [h3]; exact hone
      · exact absurd (hid_of_parsed node hpar) (hnone node hmem m)
    · intro hsafe
      have hm_lt : m < 9007199254740992 := by
        rcases h3 with h3 | ⟨node, hmem, hpar⟩
        · rw [h3]; decide
        · exact hsafe g node m rfl hmem (hid_of_parsed node hpar)
      have hexact : toDouble (m + 1) = m + 1 :=
        toDouble_of_natAbs_le _ (by omega)
      rw [hexact]
      refine ⟨?_, ?_⟩
      · intro g2 node n hg2 hmem hid
        have hgg : g = g2 := by simpa using hg2
        subst hgg
        by_cases hn : n = 0
        · subst hn; omega
        · have := h2 node hmem n (by simp [hid, NodeId.parsed, hn])
          omega
      · rcases h3 with h3 | ⟨node, hmem, hpar⟩
        · left; rw [h3]; rfl
        · right
          refine ⟨g, node, rfl, hmem, ?_⟩
          rw [hid_of_parsed node hpar]
          simp

/-- The identities of the sample graph are `1` and `2`, both below `2^53`, and the
starting identity is `3`, greater than both. -/
theorem getNextAvailableNodeId_below_bound_witness :
    (∀ g node n, imageWorld.graph = some g → node ∈ g.nodes → node.id = NodeId.num n →
      n < getNextAvailableNodeId imageWorld) ∧
    getNextAvailableNodeId imageWorld = 3 := by
  refine ⟨((getNextAvailableNodeId_below_bound imageWorld).2.2.2.2 ?_).1, by decide⟩
  intro g node n hg hmem hid
  have hgg : imageGraph = g := by
    have : some imageGraph = some g := hg
    injection this
  subst hgg
  have hids : ∀ nd ∈ imageGraph.nodes, nd.id = NodeId.num 1 ∨ nd.id = NodeId.num 2 := by decide
  rcases hids node hmem with h | h
  · rw [h] at hid; injection hid with hid; omega
  · rw [h] at hid; injection hid with hid; omega

/-- C9, the code at the failing input: the graph has one node, of identity `2^53`.
The loop leaves `maxId = 2^53` and the sum `maxId + 1` is rounded back to `2^53`,
so the starting identity is the identity of that node, where the claim gives
`2^53 + 1`, greater than it; an `add_node` of a batch on this graph is handed the
identity of the node that is there. -/
theorem getNextAvailableNodeId_reuses_identity :
    hugeWorld.graph.map (fun g => g.nodes.map Node.id) =
      some [NodeId.num 9007199254740992] ∧
    getNextAvailableNodeId hugeWorld = 9007199254740992 ∧
    ¬ ((9007199254740992 : Int) < getNextAvailableNodeId hugeWorld) ∧
    assignedIds hugeWorld [Operation.add_node ⟨"LoadImage", none, none⟩] =
      [some 9007199254740992] := by
  decide

/-! ## Reference resolution -/

/-- C5. Two-tier resolution: a reference resolves to the entry of the batch
namespace when there is one, whatever the graph holds; with no entry it
resolves to what the search of the graph finds, which is a node whose
stringified identity or title is the reference; and it fails exactly when the
namespace has no entry and no node of the graph matches. -/
theorem resolveRef_two_tier (nodeMap : JsMap Nat) (g : Graph) (s : String) :
    (∀ h, nodeMap.get s = some h → resolveRef nodeMap g s = some h) ∧
    (nodeMap.get s = none → resolveRef nodeMap g s = findExistingNodeById g s) ∧
    (∀ h, nodeMap.get s = none → resolveRef nodeMap g s = some h →
      ∃ n, g.nodes[h]? = some n ∧ (n.id.toStr = s ∨ n.title = s)) ∧
    (resolveRef nodeMap g s = none ↔
      nodeMap.get s = none ∧ ∀ n ∈ g.nodes, ¬ (n.id.toStr = s ∨ n.title = s)) := by
  refine ⟨?_, ?_, ?_, ?_⟩
  · intro h hget
    simp [resolveRef, hget]
  · intro hget
    simp [resolveRef, hget]
  · intro h hget hres
    have hfind : findExistingFrom 0 g.nodes s = some h := by
      simpa [resolveRef, hget, findExistingNodeById] using hres
    obtain ⟨_, ⟨n, hn, hmatch⟩, _⟩ := findExistingFrom_some g.nodes s 0 h hfind
    exact ⟨n, by simpa using hn, hmatch⟩
  · cases hget : nodeMap.get s with
    | some h => simp [resolveRef, hget]
    | none =>
      simp only [resolveRef, hget, findExistingNodeById, true_and]
      exact findExistingFrom_none g.nodes s 0

/-! ## Connection wiring -/

/-- C7. No partial connection: when the source or the target reference does not
resolve, or the resolved source has no output slot of the given name, or the
resolved target has no input slot of the given name, `linkNodesOnCanvas` leaves
the graph (nodes, widget values, connections) as it was. -/
theorem linkNodesOnCanvas_failure_keeps_graph (params : LinkNodeParams) (nodeMap : JsMap Nat)
    (w : World) (g : Graph) (hg : w.graph = some g)
    (hfail : resolveRef nodeMap g params.source_node_id = none ∨
      resolveRef nodeMap g params.target_node_id = none ∨
      (∃ h node, resolveRef nodeMap g params.source_node_id = some h ∧
        g.nodes[h]? = some node ∧ params.source_output ∉ node.outputs) ∨
      (∃ h node, resolveRef nodeMap g params.target_node_id = some h ∧
        g.nodes[h]? = some node ∧ params.target_input ∉ node.inputs)) :
    (linkNodesOnCanvas params nodeMap w).graph = some g ∧
    (linkNodesOnCanvas params nodeMap w).messages = w.messages := by
  simp only [linkNodesOnCanvas, hg]
  cases hs : resolveRef nodeMap g params.source_node_id with
  | none => simp [World.error, hg]
  | some sourceNode =>
    cases ht : resolveRef nodeMap g params.target_node_id with
    | none => simp [World.error, hg]
    | some targetNode =>
      have hslot : ¬ (g.findOutputSlot sourceNode params.source_output ≠ -1 ∧
          g.findInputSlot targetNode params.target_input ≠ -1) := by
        rcases hfail with h | h | ⟨h, node, hres, hnode, hnot⟩ | ⟨h, node, hres, hnode, hnot⟩
        · rw [hs] at h; cases h
        · rw [ht] at h; cases h
        · rw [hs] at hres
          injection hres with hres
          subst hres
          intro hc
          apply hc.1
          simp only [Graph.findOutputSlot, hnode]
          exact (findSlot_eq_neg_one_iff _ _).mpr hnot
        · rw [ht] at hres
          injection hres with hres
          subst hres
          intro hc
          apply hc.2
          simp only [Graph.findInputSlot, hnode]
          exact (findSlot_eq_neg_one_iff _ _).mpr hnot
      simp only [ne_eq] at hslot
      simp only [ne_eq, hslot, if_false]
      simp [World.error, hg]

/-- C8. Connection wiring on success: when both references resolve and the
named output slot exists on the source and the named input slot on the target,
`linkNodesOnCanvas` appends exactly one connection, from that output slot of the
resolved source to that input slot of the resolved target, and changes no node,
no widget value, no earlier connection and no message. -/
theorem linkNodesOnCanvas_success (params : LinkNodeParams) (nodeMap : JsMap Nat)
    (w : World) (g : Graph) (s t : Nat) (sn tn : Node) (hg : w.graph = some g)
    (hs : resolveRef nodeMap g params.source_node_id = some s)
    (ht : resolveRef nodeMap g params.target_node_id = some t)
    (hsn : g.nodes[s]? = some sn) (htn : g.nodes[t]? = some tn)
    (hout : params.source_output ∈ sn.outputs) (hin : params.target_input ∈ tn.inputs) :
    ∃ i j : Nat, sn.outputs[i]? = some params.source_output ∧
      tn.inputs[j]? = some params.target_input ∧
      linkNodesOnCanvas params nodeMap w =
        { w with graph := some { nodes := g.nodes, links := g.links ++ [⟨s, i, t, j⟩] } } := by
  obtain ⟨i, hi, higet⟩ := findSlot_of_mem sn.outputs params.source_output hout
  obtain ⟨j, hj, hjget⟩ := findSlot_of_mem tn.inputs params.target_input hin
  refine ⟨i, j, higet, hjget, ?_⟩
  have ho : g.findOutputSlot s params.source_output = (i : Int) := by
    simp only [Graph.findOutputSlot, hsn]; exact hi
  have hi2 : g.findInputSlot t params.target_input = (j : Int) := by
    simp only [Graph.findInputSlot, htn]; exact hj
  unfold linkNodesOnCanvas
  rw [hg]
  simp only [hs, ht, ho, hi2]
  have hcond : ((i : Int) ≠ -1 ∧ (j : Int) ≠ -1) := by constructor <;> omega
  rw [if_pos hcond]
  simp [Graph.connect]

/-! ## Running a list of operations -/

theorem runOperations_nil (host : Host) (ids : JsMap Int) (st : World × JsMap Nat) :
    runOperations host ids [] st = st := rfl

theorem runOperations_cons (host : Host) (ids : JsMap Int) (op : Operation)
    (rest : List Operation) (st : World × JsMap Nat) :
    runOperations host ids (op :: rest) st =
      runOperations host ids rest (applyOperation host ids st op) := rfl

theorem runOperations_append (host : Host) (ids : JsMap Int) (pre post : List Operation)
    (st : World × JsMap Nat) :
    runOperations host ids (pre ++ post) st =
      runOperations host ids post (runOperations host ids pre st) := by
  simp [runOperations, List.foldl_append]

/-! ## Unknown node type -/

/-- C10. Unknown node type: when the host cannot instantiate the type of an
`add_node` operation, `addNodeToCanvas` leaves the graph (nodes, connections,
widget values) and the messages as they were and returns the node map it was
given, so neither the role nor an identity is registered; and in a batch the
operations after it are run, from that same graph and node map. -/
theorem addNodeToCanvas_unknown_type (host : Host) (params : AddNodeParams)
    (hnone : host.createNode params.node_id = none) :
    (∀ (nodeMap : JsMap Nat) (assignedNodeId : Option Int) (w : World),
      (addNodeToCanvas host params nodeMap assignedNodeId w).1.graph = w.graph ∧
      (addNodeToCanvas host params nodeMap assignedNodeId w).1.messages = w.messages ∧
      (addNodeToCanvas host params nodeMap assignedNodeId w).2 = nodeMap) ∧
    (∀ (ids : JsMap Int) (pre rest : List Operation) (st0 : World × JsMap Nat),
      ∃ w2 : World, w2.graph = (runOperations host ids pre st0).1.graph ∧
        w2.messages = (runOperations host ids pre st0).1.messages ∧
        runOperations host ids (pre ++ Operation.add_node params :: rest) st0 =
          runOperations host ids rest (w2, (runOperations host ids pre st0).2)) := by
  have hstep : ∀ (nodeMap : JsMap Nat) (assignedNodeId : Option Int) (w : World),
      (addNodeToCanvas host params nodeMap assignedNodeId w).1.graph = w.graph ∧
      (addNodeToCanvas host params nodeMap assignedNodeId w).1.messages = w.messages ∧
      (addNodeToCanvas host params nodeMap assignedNodeId w).2 = nodeMap := by
    intro nodeMap assignedNodeId w
    cases hg : w.graph with
    | none => simp [addNodeToCanvas, hg]
    | some g => simp [addNodeToCanvas, hg, hnone, World.error]
  refine ⟨hstep, ?_⟩
  intro ids pre rest st0
  obtain ⟨h1, h2, h3⟩ := hstep (runOperations host ids pre st0).2 (ids.get params.node_id)
    (runOperations host ids pre st0).1
  refine ⟨(addNodeToCanvas host params (runOperations host ids pre st0).2
    (ids.get params.node_id) (runOperations host ids pre st0).1).1, h1, h2, ?_⟩
  rw [runOperations_append, runOperations_cons]
  congr 1
  exact Prod.ext rfl h3

/-- Instance of C7: a link from an output slot that the source node does not
have leaves the sample graph as it was. -/
theorem linkNodesOnCanvas_failure_keeps_graph_witness :
    (linkNodesOnCanvas ⟨"1", "LATENT", "2", "images"⟩ JsMap.empty imageWorld).graph =
        some imageGraph ∧
      (linkNodesOnCanvas ⟨"1", "LATENT", "2", "images"⟩ JsMap.empty imageWorld).messages =
        imageWorld.messages :=
  linkNodesOnCanvas_failure_keeps_graph ⟨"1", "LATENT", "2", "images"⟩ JsMap.empty imageWorld
    imageGraph rfl
    (Or.inr (Or.inr (Or.inl ⟨0, imageGraph.nodes.get ⟨0, by decide⟩, by decide, by decide,
      by decide⟩)))

/-- Instance of C8: linking node `1` to the node titled `Save Image` in the
sample graph adds the connection from slot `0` of the first node to slot `0` of
the second. -/
theorem linkNodesOnCanvas_success_witness :
    (∃ i j : Nat, ["IMAGE", "MASK"][i]? = some "IMAGE" ∧ ["images"][j]? = some "images" ∧
      linkNodesOnCanvas ⟨"1", "IMAGE", "Save Image", "images"⟩ JsMap.empty imageWorld =
        { imageWorld with
          graph := some { nodes := imageGraph.nodes,
                          links := imageGraph.links ++ [⟨0, i, 1, j⟩] } }) ∧
    (linkNodesOnCanvas ⟨"1", "IMAGE", "Save Image", "images"⟩ JsMap.empty imageWorld).graph =
      some { nodes := imageGraph.nodes, links := [⟨0, 0, 1, 0⟩] } :=
  ⟨linkNodesOnCanvas_success ⟨"1", "IMAGE", "Save Image", "images"⟩ JsMap.empty imageWorld
    imageGraph 0 1 (imageGraph.nodes.get ⟨0, by decide⟩) (imageGraph.nodes.get ⟨1, by decide⟩)
    rfl (by decide) (by decide) (by decide) (by decide) (by decide) (by decide), by decide⟩

/-- Instance of C10: the sample host has no node type `KSampler`, and adding
one leaves the sample graph as it was. -/
theorem addNodeToCanvas_unknown_type_witness :
    sampleHost.createNode "KSampler" = none ∧
      (addNodeToCanvas sampleHost ⟨"KSampler", none, none⟩ JsMap.empty (some 3)
        imageWorld).1.graph = some imageGraph :=
  ⟨by decide,
    ((addNodeToCanvas_unknown_type sampleHost ⟨"KSampler", none, none⟩ (by decide)).1
      JsMap.empty (some 3) imageWorld).1⟩

/-! ## The node map -/

@[simp] theorem JsMap.get_empty {α : Type} (key : String) :
    (JsMap.empty : JsMap α).get key = none := rfl

theorem JsMap.get_set {α : Type} (m : JsMap α) (k key : String) (v : α) :
    (m.set k v).get key = if k = key then some v else m.get key := rfl

theorem JsMap.get_set_self {α : Type} (m : JsMap α) (k : String) (v : α) :
    (m.set k v).get k = some v := by
  simp [JsMap.get_set]

theorem JsMap.get_set_of_ne {α : Type} (m : JsMap α) (k key : String) (v : α) (h : k ≠ key) :
    (m.set k v).get key = m.get key := by
  simp [JsMap.get_set, h]

/-! ## The node built by `addNodeToCanvas` -/

theorem applyNodeParam_fields (node : Node) (entry : String × Value) :
    (applyNodeParam node entry).id = node.id ∧ (applyNodeParam node entry).title = node.title ∧
    (applyNodeParam node entry).type = node.type ∧
    (applyNodeParam node entry).inputs = node.inputs ∧
    (applyNodeParam node entry).outputs = node.outputs ∧
    (applyNodeParam node entry).pos = node.pos := by
  unfold applyNodeParam
  cases node.widgets <;> simp

theorem foldl_applyNodeParam_fields (entries : List (String × Value)) :
    ∀ node : Node,
      (entries.foldl applyNodeParam node).id = node.id ∧
      (entries.foldl applyNodeParam node).title = node.title ∧
      (entries.foldl applyNodeParam node).type = node.type ∧
      (entries.foldl applyNodeParam node).inputs = node.inputs ∧
      (entries.foldl applyNodeParam node).outputs = node.outputs ∧
      (entries.foldl applyNodeParam node).pos = node.pos := by
  induction entries with
  | nil => intro node; simp
  | cons e rest ih =>
    intro node
    simp only [List.foldl_cons]
    obtain ⟨a1, a2, a3, a4, a5, a6⟩ := ih (applyNodeParam node e)
    obtain ⟨b1, b2, b3, b4, b5, b6⟩ := applyNodeParam_fields node e
    exact ⟨a1.trans b1, a2.trans b2, a3.trans b3, a4.trans b4, a5.trans b5, a6.trans b6⟩

theorem buildNode_id (params : AddNodeParams) (assigned : Option Int) (created : Node) :
    (buildNode params assigned created).id =
      match assigned with
      | some i => NodeId.num i
      | none => created.id := by
  unfold buildNode
  cases params.node_params with
  | none => cases assigned <;> rfl
  | some entries =>
    simp only
    rw [(foldl_applyNodeParam_fields entries _).1]
    cases assigned <;> rfl

theorem buildNode_fields (params : AddNodeParams) (assigned : Option Int) (created : Node) :
    (buildNode params assigned created).title = created.title ∧
    (buildNode params assigned created).type = created.type ∧
    (buildNode params assigned created).inputs = created.inputs ∧
    (buildNode params assigned created).outputs = created.outputs := by
  unfold buildNode
  cases params.node_params with
  | none => cases assigned <;> simp
  | some entries =>
    simp only
    obtain ⟨_, a2, a3, a4, a5, _⟩ := foldl_applyNodeParam_fields entries
      (match assigned with
        | some i =>
          { ({ created with
                pos := ((params.position.getD ⟨100, 100⟩).x, (params.position.getD ⟨100, 100⟩).y) }
              : Node) with id := NodeId.num i }
        | none =>
          { created with
            pos := ((params.position.getD ⟨100, 100⟩).x, (params.position.getD ⟨100, 100⟩).y) })
    rw [a2, a3, a4, a5]
    cases assigned <;> simp

/-! ## Equations of the methods on a loaded graph -/

theorem addNodeToCanvas_created (host : Host) (params : AddNodeParams) (nodeMap : JsMap Nat)
    (assigned : Option Int) (w : World) (g : Graph) (created : Node)
    (hg : w.graph = some g) (hc : host.createNode params.node_id = some created) :
    addNodeToCanvas host params nodeMap assigned w =
      ({ w with graph := some (g.add (buildNode params assigned created)) },
        (nodeMap.set params.node_id g.nodes.length).set
          (buildNode params assigned created).id.toStr g.nodes.length) := by
  simp [addNodeToCanvas, hg, hc]

theorem addNodeToCanvas_not_created (host : Host) (params : AddNodeParams)
    (nodeMap : JsMap Nat) (assigned : Option Int) (w : World) (g : Graph)
    (hg : w.graph = some g) (hc : host.createNode params.node_id = none) :
    addNodeToCanvas host params nodeMap assigned w =
      (w.error "Failed to create node:", nodeMap) := by
  simp [addNodeToCanvas, hg, hc]

/-! ## Graphs that extend one another -/

theorem Graph.Extends.refl (g : Graph) : g.Extends g :=
  ⟨le_refl _, fun _ n hn => ⟨n, hn, rfl, rfl, rfl, rfl, rfl⟩⟩

theorem Graph.Extends.trans {g1 g2 g3 : Graph} (h12 : g1.Extends g2) (h23 : g2.Extends g3) :
    g1.Extends g3 := by
  refine ⟨le_trans h12.1 h23.1, ?_⟩
  intro h n hn
  obtain ⟨n2, hn2, a1, a2, a3, a4, a5⟩ := h12.2 h n hn
  obtain ⟨n3, hn3, b1, b2, b3, b4, b5⟩ := h23.2 h n2 hn2
  exact ⟨n3, hn3, b1.trans a1, b2.trans a2, b3.trans a3, b4.trans a4, b5.trans a5⟩

theorem Graph.extends_add (g : Graph) (node : Node) : g.Extends (g.add node) := by
  refine ⟨by simp [Graph.add], ?_⟩
  intro h n hn
  refine ⟨n, ?_, rfl, rfl, rfl, rfl, rfl⟩
  have hlt : h < g.nodes.length := (List.getElem?_eq_some_iff.mp hn).1
  simp only [Graph.add]
  rw [List.getElem?_append_left hlt]
  exact hn

theorem Graph.extends_connect (g : Graph) (s : Nat) (i : Int) (t : Nat) (j : Int) :
    g.Extends (g.connect s i t j) :=
  ⟨le_refl _, fun _ n hn => ⟨n, hn, rfl, rfl, rfl, rfl, rfl⟩⟩

theorem Graph.extends_set_widgets (g : Graph) (h : Nat) (node : Node) (ws : List Widget)
    (hnode : g.nodes[h]? = some node) :
    g.Extends { g with nodes := g.nodes.set h { node with widgets := some ws } } := by
  refine ⟨by simp, ?_⟩
  intro k n hn
  have hlt : k < g.nodes.length := (List.getElem?_eq_some_iff.mp hn).1
  by_cases hk : h = k
  · subst hk
    rw [hnode] at hn
    injection hn with hn
    subst hn
    exact ⟨{ node with widgets := some ws }, by simp [List.getElem?_set_self hlt],
      rfl, rfl, rfl, rfl, rfl⟩
  · exact ⟨n, by simp [List.getElem?_set_ne hk, hn], rfl, rfl, rfl, rfl, rfl⟩

theorem Graph.arranged_getElem? (g : Graph) (layout : Graph → Nat → Int × Int) (h : Nat) :
    (g.arranged layout).nodes[h]? =
      (g.nodes[h]?).map fun n => { n with pos := layout g h } := by
  simp only [Graph.arranged, List.getElem?_map, List.getElem?_enum]
  cases g.nodes[h]? <;> rfl

theorem Graph.arranged_links (g : Graph) (layout : Graph → Nat → Int × Int) :
    (g.arranged layout).links = g.links := rfl

theorem Graph.arranged_length (g : Graph) (layout : Graph → Nat → Int × Int) :
    (g.arranged layout).nodes.length = g.nodes.length := by
  simp [Graph.arranged]

theorem Graph.extends_arranged (g : Graph) (layout : Graph → Nat → Int × Int) :
    g.Extends (g.arranged layout) := by
  refine ⟨by simp [Graph.arranged_length], ?_⟩
  intro h n hn
  exact ⟨{ n with pos := layout g h }, by simp [Graph.arranged_getElem?, hn],
    rfl, rfl, rfl, rfl, rfl⟩

theorem Graph.arranged_map_id (g : Graph) (layout : Graph → Nat → Int × Int) :
    (g.arranged layout).nodes.map Node.id = g.nodes.map Node.id := by
  apply List.ext_getElem?
  intro h
  simp only [List.getElem?_map, Graph.arranged_getElem?]
  cases g.nodes[h]? <;> rfl

theorem Graph.arranged_map_type (g : Graph) (layout : Graph → Nat → Int × Int) :
    (g.arranged layout).nodes.map Node.type = g.nodes.map Node.type := by
  apply List.ext_getElem?
  intro h
  simp only [List.getElem?_map, Graph.arranged_getElem?]
  cases g.nodes[h]? <;> rfl

/-! ## One operation, then a list of operations -/

theorem linkNodesOnCanvas_graph (params : LinkNodeParams) (nodeMap : JsMap Nat) (w : World)
    (g : Graph) (hg : w.graph = some g) :
    ∃ g2, (linkNodesOnCanvas params nodeMap w).graph = some g2 ∧ g2.nodes = g.nodes ∧
      (g2.links = g.links ∨ ∃ l, g2.links = g.links ++ [l]) := by
  simp only [linkNodesOnCanvas, hg]
  cases resolveRef nodeMap g params.source_node_id with
  | none => exact ⟨g, by simp [World.error, hg], rfl, Or.inl rfl⟩
  | some s =>
    cases resolveRef nodeMap g params.target_node_id with
    | none => exact ⟨g, by simp [World.error, hg], rfl, Or.inl rfl⟩
    | some t =>
      simp only
      split
      · exact ⟨_, rfl, rfl, Or.inr ⟨_, rfl⟩⟩
      · exact ⟨g, by simp [World.error, hg], rfl, Or.inl rfl⟩

theorem setNodeParam_graph (params : SetParamParams) (nodeMap : JsMap Nat) (w : World)
    (g : Graph) (hg : w.graph = some g) :
    ∃ g2, (setNodeParam params nodeMap w).graph = some g2 ∧ g.Extends g2 ∧
      g2.links = g.links ∧ g2.nodes.length = g.nodes.length := by
  simp only [setNodeParam, hg]
  cases resolveRef nodeMap g params.node_id with
  | none => exact ⟨g, by simp [World.error, hg], Graph.Extends.refl g, rfl, rfl⟩
  | some h =>
    simp only
    cases hnode : g.nodes[h]? with
    | none => exact ⟨g, by simp [hg], Graph.Extends.refl g, rfl, rfl⟩
    | some node =>
      simp only
      cases hws : node.widgets with
      | none => exact ⟨g, by simp [hg], Graph.Extends.refl g, rfl, rfl⟩
      | some ws =>
        simp only
        cases ws.find? (fun widget => decide (widget.name = params.param_name)) with
        | none => exact ⟨g, by simp [World.error, hg], Graph.Extends.refl g, rfl, rfl⟩
        | some found =>
          exact ⟨_, rfl, Graph.extends_set_widgets g h node _ hnode, rfl, by simp⟩

theorem applyOperation_step (host : Host) (ids : JsMap Int) (st : World × JsMap Nat)
    (op : Operation) (g : Graph) (hg : st.1.graph = some g) :
    ∃ g2, (applyOperation host ids st op).1.graph = some g2 ∧ g.Extends g2 ∧
      ∀ k h, (applyOperation host ids st op).2.get k = some h →
        st.2.get k = some h ∨ (g.nodes.length ≤ h ∧ h < g2.nodes.length) := by
  cases op with
  | add_node params =>
    simp only [applyOperation]
    cases hc : host.createNode params.node_id with
    | none =>
      rw [addNodeToCanvas_not_created host params st.2 _ st.1 g hg hc]
      exact ⟨g, by simp [World.error, hg], Graph.Extends.refl g, fun k h hk => Or.inl hk⟩
    | some created =>
      rw [addNodeToCanvas_created host params st.2 _ st.1 g created hg hc]
      refine ⟨_, rfl, Graph.extends_add g _, ?_⟩
      intro k h hk
      simp only [JsMap.get_set] at hk
      have hlen : (g.add (buildNode params (ids.get params.node_id) created)).nodes.length =
          g.nodes.length + 1 := by simp [Graph.add]
      split at hk
      · injection hk with hk
        right; omega
      · split at hk
        · injection hk with hk
          right; omega
        · exact Or.inl hk
  | link_node params =>
    obtain ⟨g2, hg2, hnodes, _⟩ := linkNodesOnCanvas_graph params st.2 st.1 g hg
    refine ⟨g2, hg2, ?_, fun k h hk => Or.inl hk⟩
    exact ⟨by rw [hnodes], fun h n hn => ⟨n, by rw [hnodes]; exact hn, rfl, rfl, rfl, rfl, rfl⟩⟩
  | set_param params =>
    obtain ⟨g2, hg2, hext, _, _⟩ := setNodeParam_graph params st.2 st.1 g hg
    exact ⟨g2, hg2, hext, fun k h hk => Or.inl hk⟩
  | unknown name =>
    exact ⟨g, by simp [applyOperation, World.warn, hg], Graph.Extends.refl g,
      fun k h hk => Or.inl hk⟩

theorem runOperations_inv (host : Host) (ids : JsMap Int) (ops : List Operation) :
    ∀ (st : World × JsMap Nat) (g : Graph), st.1.graph = some g →
      ∃ g2, (runOperations host ids ops st).1.graph = some g2 ∧ g.Extends g2 ∧
        ∀ k h, (runOperations host ids ops st).2.get k = some h →
          st.2.get k = some h ∨ (g.nodes.length ≤ h ∧ h < g2.nodes.length) := by
  induction ops with
  | nil =>
    intro st g hg
    exact ⟨g, hg, Graph.Extends.refl g, fun k h hk => Or.inl hk⟩
  | cons op rest ih =>
    intro st g hg
    obtain ⟨g1, hg1, hext1, hmap1⟩ := applyOperation_step host ids st op g hg
    obtain ⟨g2, hg2, hext2, hmap2⟩ := ih (applyOperation host ids st op) g1 hg1
    rw [runOperations_cons]
    refine ⟨g2, hg2, hext1.trans hext2, ?_⟩
    intro k h hk
    rcases hmap2 k h hk with h2 | ⟨h2, h3⟩
    · rcases hmap1 k h h2 with h1 | ⟨h1, h1b⟩
      · exact Or.inl h1
      · exact Or.inr ⟨h1, lt_of_lt_of_le h1b hext2.1⟩
    · exact Or.inr ⟨le_trans hext1.1 h2, h3⟩

/-! ## Nodes that were in the graph before the batch -/

/-- C6, as amended. For a node `n` at position `h` of the graph before the
batch, at every point of the batch: a reference equal to its stringified
identity or to its title resolves to `n` when the batch namespace has no entry
for that reference and no node earlier in the node order has that string as
identity or title; and a reference that is neither its stringified identity nor
its title (its role, for instance) never resolves to `n`. -/
theorem preexisting_addressability (host : Host) (ids : JsMap Int) (ops : List Operation)
    (w0 : World) (g0 : Graph) (h : Nat) (n : Node) (s : String)
    (hg0 : w0.graph = some g0) (hn : g0.nodes[h]? = some n) :
    ∃ g, (runOperations host ids ops (w0, JsMap.empty)).1.graph = some g ∧
      ((s = n.id.toStr ∨ s = n.title) →
        (runOperations host ids ops (w0, JsMap.empty)).2.get s = none →
        (∀ k m, k < h → g0.nodes[k]? = some m → m.id.toStr ≠ s ∧ m.title ≠ s) →
        resolveRef (runOperations host ids ops (w0, JsMap.empty)).2 g s = some h) ∧
      (s ≠ n.id.toStr → s ≠ n.title →
        resolveRef (runOperations host ids ops (w0, JsMap.empty)).2 g s ≠ some h) := by
  obtain ⟨g, hg, hext, hmap⟩ := runOperations_inv host ids ops (w0, JsMap.empty) g0 hg0
  have hlt : h < g0.nodes.length := (List.getElem?_eq_some_iff.mp hn).1
  obtain ⟨n2, hn2, hid, htitle, _, _, _⟩ := hext.2 h n hn
  refine ⟨g, hg, ?_, ?_⟩
  · intro hs hget hfirst
    simp only [resolveRef, hget, findExistingNodeById]
    have hmatch : n2.id.toStr = s ∨ n2.title = s := by
      rcases hs with hs | hs
      · left; rw [hid, hs]
      · right; rw [htitle, hs]
    have := findExistingFrom_first g.nodes s 0 h n2 hn2 hmatch (by
      intro k m hk hkm
      have hk0 : k < g0.nodes.length := by omega
      obtain ⟨m2, hm2, mid, mtitle, _, _, _⟩ :=
        hext.2 k (g0.nodes.get ⟨k, hk0⟩) (List.getElem?_eq_getElem hk0)
      rw [hkm] at hm2
      injection hm2 with hm2
      subst hm2
      have := hfirst k (g0.nodes.get ⟨k, hk0⟩) hk (List.getElem?_eq_getElem hk0)
      rw [mid, mtitle]
      intro hc
      rcases hc with hc | hc
      · exact this.1 hc
      · exact this.2 hc)
    simpa using this
  · intro hs1 hs2 hres
    cases hget : (runOperations host ids ops (w0, JsMap.empty)).2.get s with
    | some h2 =>
      simp only [resolveRef, hget] at hres
      injection hres with hres
      subst hres
      rcases hmap s h2 hget with hc | ⟨hc, _⟩
      · have he : (JsMap.empty : JsMap Nat).get s = none := rfl
        rw [he] at hc
        cases hc
      · omega
    | none =>
      simp only [resolveRef, hget, findExistingNodeById] at hres
      obtain ⟨_, ⟨m, hm, hmatch⟩, _⟩ := findExistingFrom_some g.nodes s 0 h hres
      simp only [Nat.sub_zero] at hm
      rw [hn2] at hm
      injection hm with hm
      subst hm
      rcases hmatch with hc | hc
      · exact hs1 (by rw [← hc, hid])
      · exact hs2 (by rw [← hc, htitle])

/-- Instance of C6: in the sample graph, after a batch that adds a `LoadImage`
node, the reference `2` still resolves to the second node and the reference
`SaveImage` (its type) does not. -/
theorem preexisting_addressability_witness :
    ∃ g, (runOperations sampleHost JsMap.empty [Operation.add_node ⟨"LoadImage", none, none⟩]
        (imageWorld, JsMap.empty)).1.graph = some g ∧
      resolveRef (runOperations sampleHost JsMap.empty
        [Operation.add_node ⟨"LoadImage", none, none⟩] (imageWorld, JsMap.empty)).2 g "2" =
          some 1 ∧
      resolveRef (runOperations sampleHost JsMap.empty
        [Operation.add_node ⟨"LoadImage", none, none⟩] (imageWorld, JsMap.empty)).2 g
          "SaveImage" ≠ some 1 := by
  obtain ⟨g, hg, h1, _⟩ := preexisting_addressability sampleHost JsMap.empty
    [Operation.add_node ⟨"LoadImage", none, none⟩] imageWorld imageGraph 1
    (imageGraph.nodes.get ⟨1, by decide⟩) "2" rfl (by decide)
  obtain ⟨g2, hg2, _, h2⟩ := preexisting_addressability sampleHost JsMap.empty
    [Operation.add_node ⟨"LoadImage", none, none⟩] imageWorld imageGraph 1
    (imageGraph.nodes.get ⟨1, by decide⟩) "SaveImage" rfl (by decide)
  have hgg : g2 = g := by
    rw [hg] at hg2
    injection hg2 with hg2
    exact hg2.symm
  subst hgg
  refine ⟨g2, hg, h1 (by decide) (by decide) ?_, h2 (by decide) (by decide)⟩
  intro k m hk hkm
  have hk0 : k = 0 := by omega
  subst hk0
  have : m = imageGraph.nodes.get ⟨0, by decide⟩ := by
    have h0 : imageGraph.nodes[0]? = some (imageGraph.nodes.get ⟨0, by decide⟩) := by decide
    rw [h0] at hkm
    injection hkm with hkm
    exact hkm.symm
  subst this
  decide

/-- Counterexample to C6 as stated: in the sample graph with two nodes titled
`Foo`, the second node has title `Foo`, yet the reference `Foo` resolves to the
first node, with no batch at all. -/
theorem preexisting_addressability_counterexample :
    ¬ (∀ (g : Graph) (h : Nat) (n : Node) (s : String), g.nodes[h]? = some n →
        (s = n.id.toStr ∨ s = n.title) → resolveRef JsMap.empty g s = some h) := by
  intro hall
  have := hall fooGraph 1 (fooGraph.nodes.get ⟨1, by decide⟩) "Foo" (by decide) (by decide)
  revert this
  decide

/-! ## The identities assigned by the first pass -/

theorem addNodeOps_append (pre post : List Operation) :
    addNodeOps (pre ++ post) = addNodeOps pre ++ addNodeOps post := by
  simp [addNodeOps, List.filterMap_append]

theorem addNodeOps_cons_add (params : AddNodeParams) (rest : List Operation) :
    addNodeOps (Operation.add_node params :: rest) = params :: addNodeOps rest := rfl

theorem assignFrom_get_ne_none (nextNodeId : Int) (key : String) (l : List AddNodeParams) :
    ∀ (index : Nat) (m : JsMap Int),
      ((∃ q ∈ l, q.node_id = key) ∨ m.get key ≠ none) →
      (assignFrom nextNodeId index l m).get key ≠ none := by
  induction l with
  | nil =>
    intro index m h
    rcases h with ⟨q, hq, _⟩ | h
    · cases hq
    · exact h
  | cons op rest ih =>
    intro index m h
    simp only [assignFrom]
    apply ih
    by_cases hop : op.node_id = key
    · right
      rw [JsMap.get_set, if_pos hop]
      simp
    · rcases h with ⟨q, hq, hqk⟩ | h
      · rcases List.mem_cons.mp hq with rfl | hmem
        · exact absurd hqk hop
        · exact Or.inl ⟨q, hmem, hqk⟩
      · right
        rw [JsMap.get_set, if_neg hop]
        exact h

theorem buildNodeTypeToId_get_ne_none (w : World) (ops : List Operation) (q : AddNodeParams)
    (hq : q ∈ addNodeOps ops) : (buildNodeTypeToId w ops).get q.node_id ≠ none :=
  assignFrom_get_ne_none _ _ _ 0 JsMap.empty (Or.inl ⟨q, hq, rfl⟩)

/-! ## Keys of the node map that a run leaves alone -/

theorem runOperations_get_preserved (host : Host) (ids : JsMap Int) (key : String)
    (ops : List Operation) :
    ∀ (st : World × JsMap Nat) (g : Graph), st.1.graph = some g →
      (∀ q ∈ addNodeOps ops, ∀ created, host.createNode q.node_id = some created →
        q.node_id ≠ key ∧ (buildNode q (ids.get q.node_id) created).id.toStr ≠ key) →
      (runOperations host ids ops st).2.get key = st.2.get key := by
  induction ops with
  | nil => intro st g _ _; rfl
  | cons op rest ih =>
    intro st g hg hkeys
    obtain ⟨g1, hg1, _, _⟩ := applyOperation_step host ids st op g hg
    rw [runOperations_cons]
    cases op with
    | add_node params =>
      have hrest : ∀ q ∈ addNodeOps rest, ∀ created, host.createNode q.node_id = some created →
          q.node_id ≠ key ∧ (buildNode q (ids.get q.node_id) created).id.toStr ≠ key := by
        intro q hq
        exact hkeys q (by rw [addNodeOps_cons_add]; exact List.mem_cons_of_mem _ hq)
      rw [ih _ g1 hg1 hrest]
      simp only [applyOperation]
      cases hc : host.createNode params.node_id with
      | none => rw [addNodeToCanvas_not_created host params st.2 _ st.1 g hg hc]
      | some created =>
        rw [addNodeToCanvas_created host params st.2 _ st.1 g created hg hc]
        obtain ⟨h1, h2⟩ := hkeys params (by rw [addNodeOps_cons_add]; exact List.mem_cons_self _ _)
          created hc
        simp only
        rw [JsMap.get_set_of_ne _ _ _ _ h2, JsMap.get_set_of_ne _ _ _ _ h1]
    | link_node params => exact ih _ g1 hg1 hkeys
    | set_param params => exact ih _ g1 hg1 hkeys
    | unknown name => exact ih _ g1 hg1 hkeys

/-! ## Dual addressability -/

/-- C4, as amended. In a batch `pre ++ add_node p :: mid` run by
`applyWorkflowToCanvas`, where the host instantiates the role of `p` and `p` is
given identity `I`: the node created for `p` is what both the role of `p` and
`String(I)` resolve to after the operations `mid`, provided no `add_node` of
`mid` that the host can instantiate has the role of `p` or `String(I)` as its
role or as its stringified identity. -/
theorem dual_addressability (host : Host) (w0 : World) (g0 : Graph)
    (pre mid : List Operation) (p : AddNodeParams) (created : Node) (I : Int)
    (hg0 : w0.graph = some g0)
    (hc : host.createNode p.node_id = some created)
    (hI : (buildNodeTypeToId w0 (pre ++ Operation.add_node p :: mid)).get p.node_id = some I)
    (hmid : ∀ q ∈ addNodeOps mid, host.createNode q.node_id ≠ none →
      q.node_id ≠ p.node_id ∧ q.node_id ≠ toString I ∧
      ∀ j, (buildNodeTypeToId w0 (pre ++ Operation.add_node p :: mid)).get q.node_id = some j →
        toString j ≠ p.node_id ∧ toString j ≠ toString I) :
    ∃ g1 g2 n,
      (runOperations host (buildNodeTypeToId w0 (pre ++ Operation.add_node p :: mid)) pre
        (w0, JsMap.empty)).1.graph = some g1 ∧
      (runOperations host (buildNodeTypeToId w0 (pre ++ Operation.add_node p :: mid))
        (pre ++ Operation.add_node p :: mid) (w0, JsMap.empty)).1.graph = some g2 ∧
      g2.nodes[g1.nodes.length]? = some n ∧ n.id = NodeId.num I ∧ n.type = created.type ∧
      resolveRef (runOperations host (buildNodeTypeToId w0 (pre ++ Operation.add_node p :: mid))
        (pre ++ Operation.add_node p :: mid) (w0, JsMap.empty)).2 g2 p.node_id =
          some g1.nodes.length ∧
      resolveRef (runOperations host (buildNodeTypeToId w0 (pre ++ Operation.add_node p :: mid))
        (pre ++ Operation.add_node p :: mid) (w0, JsMap.empty)).2 g2 (toString I) =
          some g1.nodes.length := by
  generalize hids : buildNodeTypeToId w0 (pre ++ Operation.add_node p :: mid) = ids at hI hmid
  obtain ⟨g1, hg1, _, _⟩ := runOperations_inv host ids pre (w0, JsMap.empty) g0 hg0
  obtain ⟨st1, hst1⟩ : ∃ st1, st1 = runOperations host ids pre (w0, JsMap.empty) := ⟨_, rfl⟩
  rw [← hst1] at hg1
  obtain ⟨st2, hst2⟩ : ∃ st2, st2 = applyOperation host ids st1 (Operation.add_node p) :=
    ⟨_, rfl⟩
  have hstep : st2 =
      ({ st1.1 with graph := some (g1.add (buildNode p (some I) created)) },
        (st1.2.set p.node_id g1.nodes.length).set (toString I) g1.nodes.length) := by
    rw [hst2]
    simp only [applyOperation, hI]
    rw [addNodeToCanvas_created host p _ _ _ g1 created hg1 hc, buildNode_id]
    rfl
  have hgraph2 : st2.1.graph = some (g1.add (buildNode p (some I) created)) := by
    rw [hstep]
  have hmapR : st2.2.get p.node_id = some g1.nodes.length := by
    rw [hstep]
    simp only [JsMap.get_set]
    split <;> simp
  have hmapI : st2.2.get (toString I) = some g1.nodes.length := by
    rw [hstep]
    simp [JsMap.get_set]
  have hkeys : ∀ key : String, (key = p.node_id ∨ key = toString I) →
      ∀ q ∈ addNodeOps mid, ∀ cr, host.createNode q.node_id = some cr →
        q.node_id ≠ key ∧ (buildNode q (ids.get q.node_id) cr).id.toStr ≠ key := by
    intro key hkey q hq cr hcr
    obtain ⟨h1, h2, h3⟩ := hmid q hq (by rw [hcr]; simp)
    have hsome : ids.get q.node_id ≠ none := by
      rw [← hids]
      apply buildNodeTypeToId_get_ne_none
      rw [addNodeOps_append, addNodeOps_cons_add]
      exact List.mem_append_right _ (List.mem_cons_of_mem _ hq)
    obtain ⟨j, hj⟩ := Option.ne_none_iff_exists'.mp hsome
    obtain ⟨h4, h5⟩ := h3 j hj
    rw [buildNode_id, hj]
    have hstr : (NodeId.num j).toStr = toString j := rfl
    rw [hstr]
    rcases hkey with rfl | rfl
    · exact ⟨h1, h4⟩
    · exact ⟨h2, h5⟩
  have hrun : runOperations host ids (pre ++ Operation.add_node p :: mid) (w0, JsMap.empty) =
      runOperations host ids mid st2 := by
    rw [runOperations_append, runOperations_cons, ← hst1, ← hst2]
  rw [hrun]
  obtain ⟨g2, hg2, hext, _⟩ := runOperations_inv host ids mid st2 _ hgraph2
  have hnew : (g1.add (buildNode p (some I) created)).nodes[g1.nodes.length]? =
      some (buildNode p (some I) created) := by
    simp [Graph.add]
  obtain ⟨n, hn, hnid, _, hntype, _, _⟩ := hext.2 _ _ hnew
  have hget1 := runOperations_get_preserved host ids p.node_id mid st2 _ hgraph2
    (hkeys p.node_id (Or.inl rfl))
  have hget2 := runOperations_get_preserved host ids (toString I) mid st2 _ hgraph2
    (hkeys (toString I) (Or.inr rfl))
  refine ⟨g1, g2, n, by rw [← hst1]; exact hg1, hg2, hn, ?_, ?_, ?_, ?_⟩
  · rw [hnid, buildNode_id]
  · rw [hntype, (buildNode_fields p (some I) created).2.1]
  · simp only [resolveRef, hget1, hmapR]
  · simp only [resolveRef, hget2, hmapI]

/-- Instance of C4: in the batch that adds a `LoadImage` node, then a
`SaveImage` node, then links them, on an empty graph, the first node is reached
through `LoadImage` and through `1` after the whole batch. -/
theorem dual_addressability_witness :
    ∃ g1 g2 n,
      (runOperations sampleHost
        (buildNodeTypeToId emptyWorld
          ([] ++ Operation.add_node ⟨"LoadImage", none, none⟩ ::
            [Operation.add_node ⟨"SaveImage", none, none⟩,
              Operation.link_node ⟨"LoadImage", "IMAGE", "SaveImage", "images"⟩]))
        [] (emptyWorld, JsMap.empty)).1.graph = some g1 ∧
      (runOperations sampleHost
        (buildNodeTypeToId emptyWorld
          ([] ++ Operation.add_node ⟨"LoadImage", none, none⟩ ::
            [Operation.add_node ⟨"SaveImage", none, none⟩,
              Operation.link_node ⟨"LoadImage", "IMAGE", "SaveImage", "images"⟩]))
        ([] ++ Operation.add_node ⟨"LoadImage", none, none⟩ ::
            [Operation.add_node ⟨"SaveImage", none, none⟩,
              Operation.link_node ⟨"LoadImage", "IMAGE", "SaveImage", "images"⟩])
        (emptyWorld, JsMap.empty)).1.graph = some g2 ∧
      g2.nodes[g1.nodes.length]? = some n ∧ n.id = NodeId.num 1 ∧
      n.type = (sampleNode "LoadImage" "Load Image" ["image"] ["IMAGE", "MASK"]).type ∧
      resolveRef (runOperations sampleHost
        (buildNodeTypeToId emptyWorld
          ([] ++ Operation.add_node ⟨"LoadImage", none, none⟩ ::
            [Operation.add_node ⟨"SaveImage", none, none⟩,
              Operation.link_node ⟨"LoadImage", "IMAGE", "SaveImage", "images"⟩]))
        ([] ++ Operation.add_node ⟨"LoadImage", none, none⟩ ::
            [Operation.add_node ⟨"SaveImage", none, none⟩,
              Operation.link_node ⟨"LoadImage", "IMAGE", "SaveImage", "images"⟩])
        (emptyWorld, JsMap.empty)).2 g2 "LoadImage" = some g1.nodes.length ∧
      resolveRef (runOperations sampleHost
        (buildNodeTypeToId emptyWorld
          ([] ++ Operation.add_node ⟨"LoadImage", none, none⟩ ::
            [Operation.add_node ⟨"SaveImage", none, none⟩,
              Operation.link_node ⟨"LoadImage", "IMAGE", "SaveImage", "images"⟩]))
        ([] ++ Operation.add_node ⟨"LoadImage", none, none⟩ ::
            [Operation.add_node ⟨"SaveImage", none, none⟩,
              Operation.link_node ⟨"LoadImage", "IMAGE", "SaveImage", "images"⟩])
        (emptyWorld, JsMap.empty)).2 g2 (toString (1 : Int)) = some g1.nodes.length :=
  dual_addressability sampleHost emptyWorld ⟨[], []⟩ []
    [Operation.add_node ⟨"SaveImage", none, none⟩,
      Operation.link_node ⟨"LoadImage", "IMAGE", "SaveImage", "images"⟩]
    ⟨"LoadImage", none, none⟩ (sampleNode "LoadImage" "Load Image" ["image"] ["IMAGE", "MASK"]) 1
    rfl (by decide) (by decide) (by
      intro q hq _
      have hq2 : q = ⟨"SaveImage", none, none⟩ := by simpa [addNodeOps] using hq
      subst hq2
      refine ⟨by decide, by decide, ?_⟩
      intro j hj
      have h2 : (buildNodeTypeToId emptyWorld
          ([] ++ Operation.add_node ⟨"LoadImage", none, none⟩ ::
            [Operation.add_node ⟨"SaveImage", none, none⟩,
              Operation.link_node ⟨"LoadImage", "IMAGE", "SaveImage", "images"⟩])).get
          "SaveImage" = some 2 := by decide
      rw [h2] at hj
      injection hj with hj
      subst hj
      decide)

/-- Counterexample to C4 as stated: after two `add_node` operations of role
`LoadImage` on an empty graph, the first node created (position `0`) is no
longer what the reference `LoadImage` resolves to: it resolves to the second
node (position `1`). -/
theorem dual_addressability_counterexample :
    ∃ g, (runOperations sampleHost
        (buildNodeTypeToId emptyWorld
          [Operation.add_node ⟨"LoadImage", none, none⟩,
            Operation.add_node ⟨"LoadImage", none, none⟩])
        [Operation.add_node ⟨"LoadImage", none, none⟩,
          Operation.add_node ⟨"LoadImage", none, none⟩] (emptyWorld, JsMap.empty)).1.graph =
          some g ∧
      (g.nodes[0]?).map Node.type = some "LoadImage" ∧
      resolveRef (runOperations sampleHost
        (buildNodeTypeToId emptyWorld
          [Operation.add_node ⟨"LoadImage", none, none⟩,
            Operation.add_node ⟨"LoadImage", none, none⟩])
        [Operation.add_node ⟨"LoadImage", none, none⟩,
          Operation.add_node ⟨"LoadImage", none, none⟩] (emptyWorld, JsMap.empty)).2 g
        "LoadImage" = some 1 :=
  ⟨_, rfl, by decide, by decide⟩

/-! ## Fail-forward -/

theorem arrangeNodes_graph (host : Host) (w : World) (g : Graph) (hg : w.graph = some g) :
    ∃ g2, (arrangeNodes host w).graph = some g2 ∧ g2.links = g.links ∧
      g2.nodes.map Node.id = g.nodes.map Node.id ∧
      g2.nodes.map Node.type = g.nodes.map Node.type ∧ g.Extends g2 := by
  simp only [arrangeNodes, hg]
  cases host.arrange with
  | none => exact ⟨g, by simp [World.warn, hg], rfl, rfl, rfl, Graph.Extends.refl g⟩
  | some layout =>
    exact ⟨g.arranged layout, rfl, Graph.arranged_links g layout, Graph.arranged_map_id g layout,
      Graph.arranged_map_type g layout, Graph.extends_arranged g layout⟩

theorem applyOperation_failure_isolated (host : Host) (ids : JsMap Int)
    (st : World × JsMap Nat) (op : Operation) :
    (applyOperation host ids st op).1.console = st.1.console ∨
      ((applyOperation host ids st op).1.graph = st.1.graph ∧
        (applyOperation host ids st op).2 = st.2) := by
  cases hg : st.1.graph with
  | none =>
    right
    cases op <;> simp [applyOperation, addNodeToCanvas, linkNodesOnCanvas, setNodeParam, hg,
      World.warn]
  | some g =>
    cases op with
    | add_node params =>
      simp only [applyOperation]
      cases hc : host.createNode params.node_id with
      | none =>
        rw [addNodeToCanvas_not_created host params st.2 _ st.1 g hg hc]
        right; simp [World.error, hg]
      | some created =>
        rw [addNodeToCanvas_created host params st.2 _ st.1 g created hg hc]
        left; rfl
    | link_node params =>
      simp only [applyOperation, linkNodesOnCanvas, hg]
      cases resolveRef st.2 g params.source_node_id with
      | none => right; simp [World.error, hg]
      | some s =>
        cases resolveRef st.2 g params.target_node_id with
        | none => right; simp [World.error, hg]
        | some t =>
          simp only
          split
          · left; rfl
          · right; simp [World.error, hg]
    | set_param params =>
      simp only [applyOperation, setNodeParam, hg]
      cases resolveRef st.2 g params.node_id with
      | none => right; simp [World.error, hg]
      | some h =>
        simp only
        cases g.nodes[h]? with
        | none => left; rfl
        | some node =>
          simp only
          cases node.widgets with
          | none => left; rfl
          | some ws =>
            simp only
            cases ws.find? (fun widget => decide (widget.name = params.param_name)) with
            | none => right; simp [World.error, hg]
            | some found => left; rfl
    | unknown name => right; simp [applyOperation, World.warn, hg]

theorem linkNodesOnCanvas_target_unresolved (params : LinkNodeParams) (nodeMap : JsMap Nat)
    (w : World) (g : Graph) (hg : w.graph = some g)
    (ht : resolveRef nodeMap g params.target_node_id = none) :
    (linkNodesOnCanvas params nodeMap w).graph = some g := by
  simp only [linkNodesOnCanvas, hg, ht]
  cases resolveRef nodeMap g params.source_node_id <;> simp [World.error, hg]

/-- C1, as amended. Fail-forward. In every run, each operation is applied to the
state left by the operations before it, and an operation that reports an error
leaves the graph and the node map untouched, so the operations after it run as
if it were absent. In particular for `[add_node A, link_node A to B, add_node B]`
with `A` and `B` distinct and instantiable, on a graph with no node whose
identity or title is `B`, and with the node created for `A` having neither the
title `B` nor an identity whose string is `B`: the link forms no connection and
the resulting graph has the nodes it had, then the node for `A`, then the node
for `B`, with the identities that the first pass computes at the indices `0` and
`1`; these are `start` and `start + 1` when `start` is below `2^53`. -/
theorem fail_forward (host : Host) :
    (∀ (ids : JsMap Int) (pre post : List Operation) (op : Operation) (st0 : World × JsMap Nat),
      runOperations host ids (pre ++ op :: post) st0 =
        runOperations host ids post
          (applyOperation host ids (runOperations host ids pre st0) op) ∧
      ((applyOperation host ids (runOperations host ids pre st0) op).1.console ≠
          (runOperations host ids pre st0).1.console →
        (applyOperation host ids (runOperations host ids pre st0) op).1.graph =
          (runOperations host ids pre st0).1.graph ∧
        (applyOperation host ids (runOperations host ids pre st0) op).2 =
          (runOperations host ids pre st0).2)) ∧
    (∀ (w : World) (g : Graph) (pa pb : AddNodeParams) (lp : LinkNodeParams) (nA nB : Node),
      w.graph = some g →
      lp.source_node_id = pa.node_id → lp.target_node_id = pb.node_id →
      (∀ n ∈ g.nodes, n.id.toStr ≠ pb.node_id ∧ n.title ≠ pb.node_id) →
      host.createNode pa.node_id = some nA → host.createNode pb.node_id = some nB →
      pa.node_id ≠ pb.node_id →
      nA.title ≠ pb.node_id →
      toString (assignedIdAt (getNextAvailableNodeId w) 0) ≠ pb.node_id →
      (∃ g2, (applyWorkflowToCanvas host
          [Operation.add_node pa, Operation.link_node lp, Operation.add_node pb] w).graph =
            some g2 ∧
        g2.links = g.links ∧
        g2.nodes.map Node.id = g.nodes.map Node.id ++
          [NodeId.num (assignedIdAt (getNextAvailableNodeId w) 0),
            NodeId.num (assignedIdAt (getNextAvailableNodeId w) 1)] ∧
        g2.nodes.map Node.type = g.nodes.map Node.type ++ [nA.type, nB.type]) ∧
      (getNextAvailableNodeId w < 9007199254740992 →
        assignedIdAt (getNextAvailableNodeId w) 0 = getNextAvailableNodeId w ∧
        assignedIdAt (getNextAvailableNodeId w) 1 = getNextAvailableNodeId w + 1)) := by
  constructor
  · intro ids pre post op st0
    refine ⟨by rw [runOperations_append, runOperations_cons], ?_⟩
    intro hcons
    rcases applyOperation_failure_isolated host ids (runOperations host ids pre st0) op with h | h
    · exact absurd h hcons
    · exact h
  · intro w g pa pb lp nA nB hg _hsrc htgt hpre hA hB hAB htitle hid
    refine ⟨?_, ?_⟩
    swap
    · intro hlt
      have hpos := one_le_getNextAvailableNodeId w
      constructor
      · have := assignedIdAt_exact (getNextAvailableNodeId w) 0 (by omega) (by simp; omega)
        simpa using this
      · have := assignedIdAt_exact (getNextAvailableNodeId w) 1 (by omega) (by simp; omega)
        simpa using this
    have hidA : (buildNodeTypeToId w
        [Operation.add_node pa, Operation.link_node lp, Operation.add_node pb]).get pa.node_id =
        some (assignedIdAt (getNextAvailableNodeId w) 0) := by
      simp [buildNodeTypeToId, addNodeOps, assignFrom, JsMap.get_set, hAB.symm]
    have hidB : (buildNodeTypeToId w
        [Operation.add_node pa, Operation.link_node lp, Operation.add_node pb]).get pb.node_id =
        some (assignedIdAt (getNextAvailableNodeId w) 1) := by
      simp [buildNodeTypeToId, addNodeOps, assignFrom, JsMap.get_set]
    generalize hids : buildNodeTypeToId w
      [Operation.add_node pa, Operation.link_node lp, Operation.add_node pb] = ids at hidA hidB
    generalize hstart : assignedIdAt (getNextAvailableNodeId w) 0 = start at hidA hid
    generalize hnext : assignedIdAt (getNextAvailableNodeId w) 1 = next at hidB
    obtain ⟨a, ha⟩ : ∃ a, a = buildNode pa (some start) nA := ⟨_, rfl⟩
    obtain ⟨b, hb⟩ : ∃ b, b = buildNode pb (some next) nB := ⟨_, rfl⟩
    have haid : a.id = NodeId.num start := by rw [ha, buildNode_id]
    have hbid : b.id = NodeId.num next := by rw [hb, buildNode_id]
    have hatitle : a.title = nA.title := by rw [ha]; exact (buildNode_fields _ _ _).1
    have hatype : a.type = nA.type := by rw [ha]; exact (buildNode_fields _ _ _).2.1
    have hbtype : b.type = nB.type := by rw [hb]; exact (buildNode_fields _ _ _).2.1
    -- the first operation creates the node for `A`
    obtain ⟨st1, hst1⟩ : ∃ st1, st1 = applyOperation host ids (w, JsMap.empty)
      (Operation.add_node pa) := ⟨_, rfl⟩
    have hst1eq : st1 = ({ w with graph := some (g.add a) },
        ((JsMap.empty : JsMap Nat).set pa.node_id g.nodes.length).set (toString start)
          g.nodes.length) := by
      rw [hst1]
      simp only [applyOperation, hidA]
      rw [addNodeToCanvas_created host pa _ _ _ g nA hg hA, ← ha, haid]
      rfl
    have hg1 : st1.1.graph = some (g.add a) := by rw [hst1eq]
    -- the link finds no target
    have hunres : resolveRef st1.2 (g.add a) lp.target_node_id = none := by
      rw [htgt]
      have hget : st1.2.get pb.node_id = none := by
        rw [hst1eq]
        simp [JsMap.get_set, hid, hAB]
      simp only [resolveRef, hget, findExistingNodeById]
      apply (findExistingFrom_none (g.add a).nodes pb.node_id 0).mpr
      · intro n hn
        simp only [Graph.add, List.mem_append, List.mem_singleton] at hn
        rcases hn with hn | rfl
        · intro hc
          rcases hc with hc | hc
          · exact (hpre n hn).1 hc
          · exact (hpre n hn).2 hc
        · intro hc
          rcases hc with hc | hc
          · rw [haid] at hc; exact hid hc
          · rw [hatitle] at hc; exact htitle hc
    have hg2 : (linkNodesOnCanvas lp st1.2 st1.1).graph = some (g.add a) :=
      linkNodesOnCanvas_target_unresolved lp st1.2 st1.1 (g.add a) hg1 hunres
    -- the last operation creates the node for `B`
    have hst3 : runOperations host ids
        [Operation.add_node pa, Operation.link_node lp, Operation.add_node pb]
        (w, JsMap.empty) =
        addNodeToCanvas host pb st1.2 (some next) (linkNodesOnCanvas lp st1.2 st1.1) := by
      simp only [runOperations, List.foldl_cons, List.foldl_nil]
      rw [← hst1]
      simp only [applyOperation, hidB]
    have hg3 : (runOperations host ids
        [Operation.add_node pa, Operation.link_node lp, Operation.add_node pb]
        (w, JsMap.empty)).1.graph = some ((g.add a).add b) := by
      rw [hst3, addNodeToCanvas_created host pb _ _ _ (g.add a) nB hg2 hB, ← hb]
    obtain ⟨g4, hg4, hlinks, hids4, htypes4, _⟩ := arrangeNodes_graph host _ _ hg3
    refine ⟨g4, ?_, ?_, ?_, ?_⟩
    · simp only [applyWorkflowToCanvas, World.addMessage, hids]
      exact hg4
    · rw [hlinks]; rfl
    · rw [hids4]
      simp [Graph.add, haid, hbid]
    · rw [htypes4]
      simp [Graph.add, hatype, hbtype]

/-- Instance of C1: on an empty graph, the batch that adds `LoadImage`, links
`LoadImage` to the not yet declared `SaveImage`, then adds `SaveImage`, ends
with no connection and with two nodes of identities `1` and `2`. -/
theorem fail_forward_witness :
    ∃ g2, (applyWorkflowToCanvas sampleHost
        [Operation.add_node ⟨"LoadImage", none, none⟩,
          Operation.link_node ⟨"LoadImage", "IMAGE", "SaveImage", "images"⟩,
          Operation.add_node ⟨"SaveImage", none, none⟩] emptyWorld).graph = some g2 ∧
      g2.links = [] ∧
      g2.nodes.map Node.id = [] ++
        [NodeId.num (assignedIdAt (getNextAvailableNodeId emptyWorld) 0),
          NodeId.num (assignedIdAt (getNextAvailableNodeId emptyWorld) 1)] ∧
      g2.nodes.map Node.type = [] ++ ["LoadImage", "SaveImage"] :=
  ((fail_forward sampleHost).2 emptyWorld ⟨[], []⟩ ⟨"LoadImage", none, none⟩
    ⟨"SaveImage", none, none⟩ ⟨"LoadImage", "IMAGE", "SaveImage", "images"⟩
    (sampleNode "LoadImage" "Load Image" ["image"] ["IMAGE", "MASK"])
    (sampleNode "SaveImage" "Save Image" ["images"] [])
    rfl rfl rfl (by decide) (by decide) (by decide) (by decide) (by decide) (by decide)).1

/-- Counterexample to C1 as stated: the graph is empty, so no node in it has
identity or title `B`, and the host instantiates both `A` and `B`; but the node
it creates for `A` is titled `B`, so the link from `A` to `B` resolves its target
to that node and forms a connection from the node to itself. -/
theorem fail_forward_counterexample :
    emptyWorld.graph = some ⟨[], []⟩ ∧
    (titledHost.createNode "A").isSome = true ∧ (titledHost.createNode "B").isSome = true ∧
    (applyWorkflowToCanvas titledHost
      [Operation.add_node ⟨"A", none, none⟩,
        Operation.link_node ⟨"A", "out", "B", "in"⟩,
        Operation.add_node ⟨"B", none, none⟩] emptyWorld).graph.map Graph.links =
      some [⟨0, 0, 0, 0⟩] := by
  decide

/-! ## What the first pass assigns -/

theorem assignFrom_append (nextNodeId : Int) (l1 l2 : List AddNodeParams) :
    ∀ (index : Nat) (m : JsMap Int),
      assignFrom nextNodeId index (l1 ++ l2) m =
        assignFrom nextNodeId (index + l1.length) l2 (assignFrom nextNodeId index l1 m) := by
  induction l1 with
  | nil => intro index m; simp [assignFrom]
  | cons op rest ih =>
    intro index m
    rw [List.cons_append]
    simp only [assignFrom, List.length_cons]
    rw [ih]
    congr 1
    omega

theorem assignFrom_get_of_not_mem (nextNodeId : Int) (key : String) (l : List AddNodeParams) :
    ∀ (index : Nat) (m : JsMap Int), (∀ q ∈ l, q.node_id ≠ key) →
      (assignFrom nextNodeId index l m).get key = m.get key := by
  induction l with
  | nil => intro index m _; rfl
  | cons op rest ih =>
    intro index m hkey
    simp only [assignFrom]
    rw [ih (index + 1) _ (fun q hq => hkey q (List.mem_cons_of_mem _ hq)),
      JsMap.get_set_of_ne _ _ _ _ (hkey op (List.mem_cons_self _ _))]

/-- The identity that the first pass records for a role is the sum of `nextNodeId`
and the index of the last `add_node` operation with that role, as a double. -/
theorem assignFrom_get_last (nextNodeId : Int) (l1 l2 : List AddNodeParams) (q : AddNodeParams)
    (m : JsMap Int) (hlast : ∀ r ∈ l2, r.node_id ≠ q.node_id) :
    (assignFrom nextNodeId 0 (l1 ++ q :: l2) m).get q.node_id =
      some (assignedIdAt nextNodeId l1.length) := by
  rw [assignFrom_append]
  simp only [assignFrom, Nat.zero_add]
  rw [assignFrom_get_of_not_mem _ _ _ _ _ hlast, JsMap.get_set_self]

/-- C2, the code at the failing input: on an empty graph a batch of two `add_node`
operations of the same role hands the identity `2` to both, where the claim
gives `1` to the first and `2` to the second. -/
theorem assignedIds_same_role :
    assignedIds emptyWorld
      [Operation.add_node ⟨"LoadImage", none, none⟩,
        Operation.add_node ⟨"LoadImage", none, none⟩] = [some 2, some 2] ∧
    getNextAvailableNodeId emptyWorld = 1 := by
  decide

/-- C3, the code at the failing input: on the sample graph, whose identities are
`1` and `2`, the starting identity is `3`, and the first and the third
`add_node` of the batch, which have the same role, are both handed the
identity `5`. -/
theorem assignedIds_not_distinct :
    assignedIds imageWorld
      [Operation.add_node ⟨"LoadImage", none, none⟩,
        Operation.add_node ⟨"SaveImage", none, none⟩,
        Operation.add_node ⟨"LoadImage", none, none⟩] = [some 5, some 4, some 5] ∧
    getNextAvailableNodeId imageWorld = 3 := by
  decide

/-- The identity handed to `addNodeToCanvas` for an `add_node` operation of the
batch is the entry of `assignedIds` at the index of the operation among the
`add_node` operations. -/
theorem assignedIds_getElem (host : Host) (w : World) (pre post : List Operation)
    (p : AddNodeParams) (st : World × JsMap Nat) :
    (assignedIds w (pre ++ Operation.add_node p :: post))[(addNodeOps pre).length]? =
      some ((buildNodeTypeToId w (pre ++ Operation.add_node p :: post)).get p.node_id) ∧
    applyOperation host (buildNodeTypeToId w (pre ++ Operation.add_node p :: post)) st
        (Operation.add_node p) =
      addNodeToCanvas host p st.2
        ((buildNodeTypeToId w (pre ++ Operation.add_node p :: post)).get p.node_id) st.1 := by
  refine ⟨?_, rfl⟩
  simp only [assignedIds, addNodeOps_append, addNodeOps_cons_add, List.map_append,
    List.map_cons]
  rw [List.getElem?_append_right (by simp)]
  simp

/-- When the roles of the `add_node` operations of a batch are pairwise distinct,
the operation at index `i` among them is handed `getNextAvailableNodeId + i`, as
a double. -/
theorem assignedIds_of_nodup (w : World) (ops : List Operation)
    (hnodup : ((addNodeOps ops).map AddNodeParams.node_id).Nodup) (i : Nat) (q : AddNodeParams)
    (hq : (addNodeOps ops)[i]? = some q) :
    (buildNodeTypeToId w ops).get q.node_id =
      some (assignedIdAt (getNextAvailableNodeId w) i) := by
  obtain ⟨hlt, hqi⟩ := List.getElem?_eq_some_iff.mp hq
  have hsplit : addNodeOps ops =
      (addNodeOps ops).take i ++ q :: (addNodeOps ops).drop (i + 1) := by
    rw [← hqi, ← List.drop_eq_getElem_cons hlt, List.take_append_drop]
  have hlast : ∀ r ∈ (addNodeOps ops).drop (i + 1), r.node_id ≠ q.node_id := by
    intro r hr hrq
    rw [hsplit, List.map_append, List.map_cons] at hnodup
    have h2 := (List.nodup_append.mp hnodup).2.1
    have h3 := (List.nodup_cons.mp h2).1
    exact h3 (by rw [← hrq]; exact List.mem_map_of_mem _ hr)
  have := assignFrom_get_last (getNextAvailableNodeId w) ((addNodeOps ops).take i)
    ((addNodeOps ops).drop (i + 1)) q JsMap.empty hlast
  rw [← hsplit] at this
  rw [buildNodeTypeToId, this]
  simp [List.length_take, Nat.min_eq_left (le_of_lt hlt)]

/-! ## Widgets -/

theorem setWidgetValue_eq_modify (ws : List Widget) (key : String) (v : Value) :
    setWidgetValue ws key v =
      ws.modify (fun wd => { wd with value := v }) (widgetIndex ws key) := by
  induction ws with
  | nil => simp [setWidgetValue]
  | cons wd rest ih =>
    unfold setWidgetValue
    by_cases h : wd.name = key
    · rw [if_pos h]
      have : widgetIndex (wd :: rest) key = 0 := by
        simp only [widgetIndex, List.map_cons]
        exact List.indexOf_cons_eq _ h
      rw [this]
      rfl
    · rw [if_neg h]
      have : widgetIndex (wd :: rest) key = widgetIndex rest key + 1 := by
        simp only [widgetIndex, List.map_cons]
        exact List.indexOf_cons_ne _ h
      rw [this, List.modify_succ_cons, ih]

theorem setWidgetValue_names (ws : List Widget) (key : String) (v : Value) :
    (setWidgetValue ws key v).map Widget.name = ws.map Widget.name := by
  induction ws with
  | nil => rfl
  | cons wd rest ih =>
    unfold setWidgetValue
    by_cases h : wd.name = key
    · rw [if_pos h]; rfl
    · rw [if_neg h, List.map_cons, ih]; rfl

theorem widgetIndex_setWidgetValue (ws : List Widget) (key name : String) (v : Value) :
    widgetIndex (setWidgetValue ws key v) name = widgetIndex ws name := by
  simp only [widgetIndex, setWidgetValue_names]

theorem setWidgetValue_getElem? (ws : List Widget) (key : String) (v : Value) (i : Nat) :
    (setWidgetValue ws key v)[i]? =
      (ws[i]?).map fun wd => if widgetIndex ws key = i then { wd with value := v } else wd := by
  rw [setWidgetValue_eq_modify, List.getElem?_modify]
  rfl

theorem widgetIndex_lt_iff (ws : List Widget) (key : String) :
    widgetIndex ws key < ws.length ↔ ∃ wd ∈ ws, wd.name = key := by
  have h := List.indexOf_lt_length (a := key) (l := ws.map Widget.name)
  simp only [List.length_map, List.mem_map] at h
  exact h

/-- The widget at `widgetIndex ws key` has the name `key` and no widget before
it has. -/
theorem widgetIndex_spec (ws : List Widget) (key : String) (h : widgetIndex ws key < ws.length) :
    (∃ wd, ws[widgetIndex ws key]? = some wd ∧ wd.name = key) ∧
    ∀ j wd, j < widgetIndex ws key → ws[j]? = some wd → wd.name ≠ key := by
  induction ws with
  | nil => simp at h
  | cons w rest ih =>
    by_cases hw : w.name = key
    · have h0 : widgetIndex (w :: rest) key = 0 := by
        simp only [widgetIndex, List.map_cons]
        exact List.indexOf_cons_eq _ hw
      rw [h0]
      exact ⟨⟨w, by simp, hw⟩, fun j wd hj => by omega⟩
    · have h1 : widgetIndex (w :: rest) key = widgetIndex rest key + 1 := by
        simp only [widgetIndex, List.map_cons]
        exact List.indexOf_cons_ne _ hw
      rw [h1] at h ⊢
      have hlt : widgetIndex rest key < rest.length := by
        simp only [List.length_cons] at h; omega
      obtain ⟨⟨wd, hwd, hname⟩, hbefore⟩ := ih hlt
      refine ⟨⟨wd, by simpa using hwd, hname⟩, ?_⟩
      intro j m hj hm
      cases j with
      | zero =>
        have : w = m := by simpa using hm
        subst this
        exact hw
      | succ j => exact hbefore j m (by omega) (by simpa using hm)

theorem find?_name_isSome_iff (ws : List Widget) (key : String) :
    (ws.find? (fun widget => decide (widget.name = key))).isSome ↔
      widgetIndex ws key < ws.length := by
  rw [widgetIndex_lt_iff]
  simp [List.find?_isSome]

/-! ## Setting a parameter -/

theorem setWidgetValue_eq_set (ws : List Widget) (key : String) (v : Value) (wd : Widget)
    (hwd : ws[widgetIndex ws key]? = some wd) :
    setWidgetValue ws key v = ws.set (widgetIndex ws key) ({ wd with value := v } : Widget) := by
  apply List.ext_getElem?
  intro j
  rw [setWidgetValue_getElem?, List.getElem?_set]
  by_cases hj : widgetIndex ws key = j
  · subst hj
    have hlt : widgetIndex ws key < ws.length := (List.getElem?_eq_some_iff.mp hwd).1
    simp [hwd, hlt]
  · simp only [hj, if_false]
    cases ws[j]? <;> rfl

theorem setNodeParam_found (params : SetParamParams) (nodeMap : JsMap Nat) (w : World)
    (g : Graph) (h : Nat) (node : Node) (ws : List Widget)
    (hg : w.graph = some g) (hres : resolveRef nodeMap g params.node_id = some h)
    (hnode : g.nodes[h]? = some node) (hws : node.widgets = some ws)
    (hfield : widgetIndex ws params.param_name < ws.length) :
    setNodeParam params nodeMap w =
      { w with
        graph := some
          { g with
            nodes := g.nodes.set h
              { node with
                widgets := some (setWidgetValue ws params.param_name params.param_value) } } } := by
  have hsome := (find?_name_isSome_iff ws params.param_name).mpr hfield
  obtain ⟨found, hfound⟩ := Option.isSome_iff_exists.mp hsome
  simp only [setNodeParam, hg, hres, hnode, hws, hfound]

theorem setNodeParam_not_found (params : SetParamParams) (nodeMap : JsMap Nat) (w : World)
    (g : Graph) (h : Nat) (node : Node) (ws : List Widget)
    (hg : w.graph = some g) (hres : resolveRef nodeMap g params.node_id = some h)
    (hnode : g.nodes[h]? = some node) (hws : node.widgets = some ws)
    (hfield : ∀ wd ∈ ws, wd.name ≠ params.param_name) :
    setNodeParam params nodeMap w = w.error "Widget not found:" := by
  have hnone : ws.find? (fun widget => decide (widget.name = params.param_name)) = none := by
    rw [List.find?_eq_none]
    intro wd hwd
    simpa using hfield wd hwd
  simp only [setNodeParam, hg, hres, hnode, hws, hnone]

theorem setNodeParam_no_widgets (params : SetParamParams) (nodeMap : JsMap Nat) (w : World)
    (g : Graph) (h : Nat) (node : Node)
    (hg : w.graph = some g) (hres : resolveRef nodeMap g params.node_id = some h)
    (hnode : g.nodes[h]? = some node) (hws : node.widgets = none) :
    setNodeParam params nodeMap w = w := by
  simp only [setNodeParam, hg, hres, hnode, hws]

/-- C12. `set_param` assigns verbatim: when the node reference resolves to a node
that has a widget named `param_name`, `setNodeParam` gives the first widget of
that name the value `param_value` as it is, and changes nothing else: the other
widgets of the node, the other fields of the node, the other nodes, the
connections, the console and the messages are as before. -/
theorem setNodeParam_assigns_verbatim (params : SetParamParams) (nodeMap : JsMap Nat)
    (w : World) (g : Graph) (h : Nat) (node : Node) (ws : List Widget)
    (hg : w.graph = some g) (hres : resolveRef nodeMap g params.node_id = some h)
    (hnode : g.nodes[h]? = some node) (hws : node.widgets = some ws)
    (hfield : ∃ wd ∈ ws, wd.name = params.param_name) :
    ∃ (i : Nat) (wd : Widget), ws[i]? = some wd ∧ wd.name = params.param_name ∧
      (∀ j m, j < i → ws[j]? = some m → m.name ≠ params.param_name) ∧
      setNodeParam params nodeMap w =
        { w with
          graph := some
            { nodes := g.nodes.set h
                { node with
                  widgets := some (ws.set i { wd with value := params.param_value }) },
              links := g.links } } := by
  have hlt := (widgetIndex_lt_iff ws params.param_name).mpr hfield
  obtain ⟨⟨wd, hwd, hname⟩, hbefore⟩ := widgetIndex_spec ws params.param_name hlt
  refine ⟨widgetIndex ws params.param_name, wd, hwd, hname, hbefore, ?_⟩
  rw [setNodeParam_found params nodeMap w g h node ws hg hres hnode hws hlt,
    setWidgetValue_eq_set ws _ _ wd hwd]

/-- Instance of C12: setting `seed` to the string `12` on node `1` of the sample
graph stores that string in the widget, and nothing else changes. -/
theorem setNodeParam_assigns_verbatim_witness :
    (∃ (i : Nat) (wd : Widget), [(⟨"seed", Value.num 0⟩ : Widget)][i]? = some wd ∧
      wd.name = "seed" ∧
      (∀ j m, j < i → [(⟨"seed", Value.num 0⟩ : Widget)][j]? = some m → m.name ≠ "seed") ∧
      setNodeParam ⟨"1", "seed", Value.str "12"⟩ JsMap.empty imageWorld =
        { imageWorld with
          graph := some
            { nodes := imageGraph.nodes.set 0
                { imageGraph.nodes.get ⟨0, by decide⟩ with
                  widgets := some ([(⟨"seed", Value.num 0⟩ : Widget)].set i
                    { wd with value := Value.str "12" }) },
              links := imageGraph.links } }) ∧
    (setNodeParam ⟨"1", "seed", Value.str "12"⟩ JsMap.empty imageWorld).graph.map
        (fun g => g.nodes.map Node.widgets) =
      some [some [⟨"seed", Value.str "12"⟩], some [⟨"seed", Value.num 0⟩]] :=
  ⟨setNodeParam_assigns_verbatim ⟨"1", "seed", Value.str "12"⟩ JsMap.empty imageWorld imageGraph
    0 (imageGraph.nodes.get ⟨0, by decide⟩) [⟨"seed", Value.num 0⟩] rfl (by decide) (by decide)
    (by decide) ⟨⟨"seed", Value.num 0⟩, by decide, by decide⟩, by decide⟩

/-- C13, the code at the failing input: the node of identity `7` has no `widgets`
array, hence no field named `text`; `setNodeParam` returns with the world as it
was, so no missing-field error is logged, where a node with a widget list that
lacks the field gets the error `Widget not found:`. -/
theorem setNodeParam_silent_without_widgets :
    setNodeParam ⟨"7", "text", Value.str "hello"⟩ JsMap.empty noteWorld = noteWorld ∧
    (setNodeParam ⟨"7", "text", Value.str "hello"⟩ JsMap.empty noteWorld).console = [] ∧
    (setNodeParam ⟨"1", "text", Value.str "hello"⟩ JsMap.empty imageWorld).console =
      [(Level.error, "Widget not found:")] := by
  decide

/-! ## The parameters of an `add_node` operation -/

theorem foldl_applyNodeParam_widgets (entries : List (String × Value)) :
    ∀ node : Node,
      (entries.foldl applyNodeParam node).widgets =
        node.widgets.map fun ws =>
          entries.foldl (fun acc entry => setWidgetValue acc entry.1 entry.2) ws := by
  induction entries with
  | nil =>
    intro node
    cases hw : node.widgets <;> simp [hw]
  | cons e rest ih =>
    intro node
    simp only [List.foldl_cons]
    rw [ih]
    unfold applyNodeParam
    cases hw : node.widgets <;> simp [hw]

theorem foldl_setWidgetValue_index (entries : List (String × Value)) (name : String) :
    ∀ ws : List Widget,
      widgetIndex (entries.foldl (fun acc entry => setWidgetValue acc entry.1 entry.2) ws) name =
        widgetIndex ws name := by
  induction entries with
  | nil => intro ws; rfl
  | cons e rest ih =>
    intro ws
    simp only [List.foldl_cons]
    rw [ih, widgetIndex_setWidgetValue]

/-- A widget that no entry selects keeps its value. -/
theorem foldl_setWidgetValue_untouched (entries : List (String × Value)) (i : Nat) :
    ∀ (ws : List Widget) (wd : Widget), ws[i]? = some wd →
      (∀ e ∈ entries, widgetIndex ws e.1 ≠ i) →
      (entries.foldl (fun acc entry => setWidgetValue acc entry.1 entry.2) ws)[i]? = some wd := by
  induction entries with
  | nil => intro ws wd hwd _; exact hwd
  | cons e rest ih =>
    intro ws wd hwd hne
    simp only [List.foldl_cons]
    apply ih
    · rw [setWidgetValue_getElem?, hwd]
      simp [hne e (List.mem_cons_self _ _)]
    · intro e2 he2
      rw [widgetIndex_setWidgetValue]
      exact hne e2 (List.mem_cons_of_mem _ he2)

/-- The widget selected by a key of the mapping gets the value of that key. -/
theorem foldl_setWidgetValue_selected (entries : List (String × Value))
    (hkeys : (entries.map Prod.fst).Nodup) (key : String) (v : Value)
    (hmem : (key, v) ∈ entries) :
    ∀ (ws : List Widget) (wd : Widget), ws[widgetIndex ws key]? = some wd →
      (entries.foldl (fun acc entry => setWidgetValue acc entry.1 entry.2) ws)[widgetIndex ws key]? =
        some { wd with value := v } := by
  induction entries with
  | nil => cases hmem
  | cons e rest ih =>
    intro ws wd hwd
    simp only [List.foldl_cons]
    have hnodup : e.1 ∉ rest.map Prod.fst ∧ (rest.map Prod.fst).Nodup := by
      rw [List.map_cons] at hkeys
      exact List.nodup_cons.mp hkeys
    have hname : wd.name = key := by
      have hlt : widgetIndex ws key < ws.length := (List.getElem?_eq_some_iff.mp hwd).1
      obtain ⟨⟨wd2, hwd2, hn2⟩, _⟩ := widgetIndex_spec ws key hlt
      rw [hwd] at hwd2
      injection hwd2 with hwd2
      rw [hwd2]; exact hn2
    rcases List.mem_cons.mp hmem with heq | hrest
    · -- this entry sets the widget, the later entries have other keys
      have he1 : e.1 = key := by rw [← heq]
      have he2v : e.2 = v := by rw [← heq]
      rw [he1, he2v]
      rw [he1] at hnodup
      have hstep : (setWidgetValue ws key v)[widgetIndex ws key]? = some { wd with value := v } := by
        rw [setWidgetValue_getElem?, hwd]
        simp
      apply foldl_setWidgetValue_untouched rest _ _ _ hstep
      intro e2 he2
      rw [widgetIndex_setWidgetValue]
      intro hc
      have hlt : widgetIndex ws key < ws.length := (List.getElem?_eq_some_iff.mp hwd).1
      have hlt2 : widgetIndex ws e2.1 < ws.length := by rw [hc]; exact hlt
      obtain ⟨⟨wd2, hwd2, hn2⟩, _⟩ := widgetIndex_spec ws e2.1 hlt2
      rw [hc, hwd] at hwd2
      injection hwd2 with hwd2
      have hk : e2.1 = key := by rw [← hn2, ← hwd2, hname]
      exact hnodup.1 (by rw [← hk]; exact List.mem_map_of_mem _ he2)
    · -- this entry has another key, so it leaves the widget alone
      have hne : e.1 ≠ key := by
        intro hc
        exact hnodup.1 (by rw [hc]; exact List.mem_map_of_mem Prod.fst hrest)
      have hidx : widgetIndex ws e.1 ≠ widgetIndex ws key := by
        intro hc
        have hlt : widgetIndex ws key < ws.length := (List.getElem?_eq_some_iff.mp hwd).1
        have hlt2 : widgetIndex ws e.1 < ws.length := by rw [hc]; exact hlt
        obtain ⟨⟨wd2, hwd2, hn2⟩, _⟩ := widgetIndex_spec ws e.1 hlt2
        rw [hc, hwd] at hwd2
        injection hwd2 with hwd2
        exact hne (by rw [← hn2, ← hwd2, hname])
      have hstep : (setWidgetValue ws e.1 e.2)[widgetIndex ws key]? = some wd := by
        rw [setWidgetValue_getElem?, hwd]
        simp [hidx]
      have := ih hnodup.2 hrest (setWidgetValue ws e.1 e.2) wd
        (by rw [widgetIndex_setWidgetValue]; exact hstep)
      rw [widgetIndex_setWidgetValue] at this
      exact this

theorem buildNode_widgets (params : AddNodeParams) (assigned : Option Int) (created : Node) :
    (buildNode params assigned created).widgets =
      created.widgets.map fun ws =>
        (params.node_params.getD []).foldl
          (fun acc entry => setWidgetValue acc entry.1 entry.2) ws := by
  unfold buildNode
  cases params.node_params with
  | none =>
    cases assigned <;> cases hw : created.widgets <;> simp [hw]
  | some entries =>
    simp only
    rw [foldl_applyNodeParam_widgets]
    cases assigned <;> rfl

theorem foldl_setWidgetValue_names (entries : List (String × Value)) :
    ∀ ws : List Widget,
      (entries.foldl (fun acc entry => setWidgetValue acc entry.1 entry.2) ws).map Widget.name =
        ws.map Widget.name := by
  induction entries with
  | nil => intro ws; rfl
  | cons e rest ih =>
    intro ws
    simp only [List.foldl_cons]
    rw [ih, setWidgetValue_names]

theorem widgetIndex_eq_of_first (ws : List Widget) (i : Nat) (wd : Widget)
    (hwd : ws[i]? = some wd)
    (hfirst : ∀ j m, j < i → ws[j]? = some m → m.name ≠ wd.name) :
    widgetIndex ws wd.name = i := by
  have hi : i < ws.length := (List.getElem?_eq_some_iff.mp hwd).1
  have hlt : widgetIndex ws wd.name < ws.length :=
    (widgetIndex_lt_iff ws wd.name).mpr ⟨wd, List.mem_iff_getElem?.mpr ⟨i, hwd⟩, rfl⟩
  obtain ⟨⟨wd2, hwd2, hn2⟩, hbefore⟩ := widgetIndex_spec ws wd.name hlt
  rcases Nat.lt_trichotomy (widgetIndex ws wd.name) i with h | h | h
  · exact absurd hn2 (hfirst _ wd2 h hwd2)
  · exact h
  · exact absurd rfl (hbefore i wd h hwd)

theorem widgetIndex_name_of_eq (ws : List Widget) (key : String) (i : Nat) (wd : Widget)
    (hwd : ws[i]? = some wd) (hidx : widgetIndex ws key = i) : wd.name = key := by
  have hi : i < ws.length := (List.getElem?_eq_some_iff.mp hwd).1
  obtain ⟨⟨wd2, hwd2, hn2⟩, _⟩ := widgetIndex_spec ws key (by rw [hidx]; exact hi)
  rw [hidx, hwd] at hwd2
  injection hwd2 with hwd2
  rw [hwd2]; exact hn2

/-- C11, as amended. The parameters of `add_node` are optional hints: for an
instantiable type and a parameter mapping `P`, the node is added to the graph
and registered under its role and its stringified identity, whatever the keys
of `P`; and of its widgets, the first one of each name `n` has the value `P[n]`
when `n` is a key of `P`, while a widget whose name is no key of `P`, and a
widget that comes after another widget of the same name, keep the value the
host created them with. A node created without a widget list is added without
one. -/
theorem addNode_params_are_hints (host : Host) (params : AddNodeParams) (nodeMap : JsMap Nat)
    (assigned : Option Int) (w : World) (g : Graph) (created : Node)
    (hg : w.graph = some g) (hc : host.createNode params.node_id = some created)
    (hkeys : ((params.node_params.getD []).map Prod.fst).Nodup) :
    ∃ node : Node,
      (addNodeToCanvas host params nodeMap assigned w).1.graph =
        some { nodes := g.nodes ++ [node], links := g.links } ∧
      (addNodeToCanvas host params nodeMap assigned w).2.get params.node_id =
        some g.nodes.length ∧
      (addNodeToCanvas host params nodeMap assigned w).2.get node.id.toStr =
        some g.nodes.length ∧
      (created.widgets = none → node.widgets = none) ∧
      ∀ ws, created.widgets = some ws →
        ∃ ws2, node.widgets = some ws2 ∧ ws2.length = ws.length ∧
          ∀ (i : Nat) (wd : Widget), ws[i]? = some wd →
            (∀ v : Value, (wd.name, v) ∈ params.node_params.getD [] →
              (∀ (j : Nat) (m : Widget), j < i → ws[j]? = some m → m.name ≠ wd.name) →
              ws2[i]? = some { wd with value := v }) ∧
            ((∀ v : Value, (wd.name, v) ∉ params.node_params.getD []) → ws2[i]? = some wd) ∧
            ((∃ (j : Nat) (m : Widget), j < i ∧ ws[j]? = some m ∧ m.name = wd.name) →
              ws2[i]? = some wd) := by
  refine ⟨buildNode params assigned created, ?_, ?_, ?_, ?_, ?_⟩
  · rw [addNodeToCanvas_created host params nodeMap assigned w g created hg hc]
    rfl
  · rw [addNodeToCanvas_created host params nodeMap assigned w g created hg hc]
    simp only [JsMap.get_set]
    split <;> simp
  · rw [addNodeToCanvas_created host params nodeMap assigned w g created hg hc]
    simp [JsMap.get_set]
  · intro hnone
    rw [buildNode_widgets, hnone]
    rfl
  · intro ws hws
    refine ⟨(params.node_params.getD []).foldl
      (fun acc entry => setWidgetValue acc entry.1 entry.2) ws, ?_, ?_, ?_⟩
    · rw [buildNode_widgets, hws]
      rfl
    · have := congrArg List.length (foldl_setWidgetValue_names (params.node_params.getD []) ws)
      simpa using this
    · intro i wd hwd
      refine ⟨?_, ?_, ?_⟩
      · intro v hv hfirst
        have hidx := widgetIndex_eq_of_first ws i wd hwd hfirst
        have := foldl_setWidgetValue_selected (params.node_params.getD []) hkeys wd.name v hv
          ws wd (by rw [hidx]; exact hwd)
        rw [hidx] at this
        exact this
      · intro hnokey
        apply foldl_setWidgetValue_untouched _ _ _ _ hwd
        intro e he hidx
        have hname := widgetIndex_name_of_eq ws e.1 i wd hwd hidx
        exact hnokey e.2 (by rw [hname]; exact he)
      · intro hdup
        obtain ⟨j, m, hj, hm, hmn⟩ := hdup
        apply foldl_setWidgetValue_untouched _ _ _ _ hwd
        intro e he hidx
        have hname := widgetIndex_name_of_eq ws e.1 i wd hwd hidx
        have hi : i < ws.length := (List.getElem?_eq_some_iff.mp hwd).1
        obtain ⟨_, hbefore⟩ := widgetIndex_spec ws e.1 (by rw [hidx]; exact hi)
        exact hbefore j m (by rw [hidx]; exact hj) hm (by rw [hmn, hname])

/-- Instance of C11: adding a `LoadImage` node with the parameters `seed` and
`steps` to the empty graph stores `42` in its widget `seed`; the key `steps`
names no widget and the node is added all the same. -/
theorem addNode_params_are_hints_witness :
    (addNodeToCanvas sampleHost
        ⟨"LoadImage", none, some [("seed", Value.num 42), ("steps", Value.num 20)]⟩
        JsMap.empty (some 1) emptyWorld).1.graph.map (fun g => g.nodes.map Node.widgets) =
      some [some [⟨"seed", Value.num 42⟩]] ∧
    ∃ node : Node,
      (addNodeToCanvas sampleHost
        ⟨"LoadImage", none, some [("seed", Value.num 42), ("steps", Value.num 20)]⟩
        JsMap.empty (some 1) emptyWorld).1.graph =
          some { nodes := [] ++ [node], links := [] } ∧
      (addNodeToCanvas sampleHost
        ⟨"LoadImage", none, some [("seed", Value.num 42), ("steps", Value.num 20)]⟩
        JsMap.empty (some 1) emptyWorld).2.get "LoadImage" = some 0 := by
  refine ⟨by decide, ?_⟩
  obtain ⟨node, h1, h2, _⟩ := addNode_params_are_hints sampleHost
    ⟨"LoadImage", none, some [("seed", Value.num 42), ("steps", Value.num 20)]⟩
    JsMap.empty (some 1) emptyWorld ⟨[], []⟩
    (sampleNode "LoadImage" "Load Image" ["image"] ["IMAGE", "MASK"]) rfl (by decide) (by decide)
  exact ⟨node, h1, h2⟩

/-- Counterexample to C11 as stated: the node has two widgets named
`control_after_generate` and the mapping has that key; only the first of the two
gets the value `fixed`, the second keeps `randomize`. -/
theorem addNode_params_are_hints_counterexample :
    (addNodeToCanvas twinHost
        ⟨"DualSampler", none, some [("control_after_generate", Value.str "fixed")]⟩
        JsMap.empty (some 1) emptyWorld).1.graph.map (fun g => g.nodes.map Node.widgets) =
      some [some [⟨"seed", Value.num 0⟩, ⟨"control_after_generate", Value.str "fixed"⟩,
        ⟨"noise_seed", Value.num 0⟩, ⟨"control_after_generate", Value.str "randomize"⟩]] := by
  decide

/-! ## What a run leaves alone: messages and the arrange counter -/

theorem applyOperation_frame (host : Host) (ids : JsMap Int) (st : World × JsMap Nat)
    (op : Operation) :
    (applyOperation host ids st op).1.messages = st.1.messages ∧
    (applyOperation host ids st op).1.arrangeCalls = st.1.arrangeCalls ∧
    ∃ l, (applyOperation host ids st op).1.console = st.1.console ++ l := by
  cases hg : st.1.graph with
  | none =>
    cases op with
    | add_node p => simp [applyOperation, addNodeToCanvas, hg]
    | link_node p => simp [applyOperation, linkNodesOnCanvas, hg]
    | set_param p => simp [applyOperation, setNodeParam, hg]
    | unknown name => simp [applyOperation, World.warn]
  | some g =>
    cases op with
    | add_node p =>
      simp only [applyOperation]
      cases hc : host.createNode p.node_id with
      | none =>
        rw [addNodeToCanvas_not_created host p st.2 _ st.1 g hg hc]
        simp [World.error]
      | some created =>
        rw [addNodeToCanvas_created host p st.2 _ st.1 g created hg hc]
        simp
    | link_node p =>
      simp only [applyOperation, linkNodesOnCanvas, hg]
      cases resolveRef st.2 g p.source_node_id with
      | none => simp [World.error]
      | some s =>
        cases resolveRef st.2 g p.target_node_id with
        | none => simp [World.error]
        | some t =>
          simp only
          split <;> simp [World.error]
    | set_param p =>
      simp only [applyOperation, setNodeParam, hg]
      cases resolveRef st.2 g p.node_id with
      | none => simp [World.error]
      | some h =>
        simp only
        cases g.nodes[h]? with
        | none => simp
        | some node =>
          simp only
          cases node.widgets with
          | none => simp
          | some ws =>
            simp only
            cases ws.find? (fun widget => decide (widget.name = p.param_name)) <;>
              simp [World.error]
    | unknown name => simp [applyOperation, World.warn]

theorem runOperations_frame (host : Host) (ids : JsMap Int) (ops : List Operation) :
    ∀ st : World × JsMap Nat,
      (runOperations host ids ops st).1.messages = st.1.messages ∧
      (runOperations host ids ops st).1.arrangeCalls = st.1.arrangeCalls ∧
      ∃ l, (runOperations host ids ops st).1.console = st.1.console ++ l := by
  induction ops with
  | nil => intro st; exact ⟨rfl, rfl, [], by simp [runOperations]⟩
  | cons op rest ih =>
    intro st
    rw [runOperations_cons]
    obtain ⟨a1, a2, l1, a3⟩ := applyOperation_frame host ids st op
    obtain ⟨b1, b2, l2, b3⟩ := ih (applyOperation host ids st op)
    exact ⟨b1.trans a1, b2.trans a2, l1 ++ l2, by rw [b3, a3, List.append_assoc]⟩

theorem arrangeNodes_frame (host : Host) (w : World) :
    (arrangeNodes host w).messages = w.messages ∧
    ∃ l, (arrangeNodes host w).console = w.console ++ l := by
  unfold arrangeNodes
  cases w.graph with
  | none => exact ⟨rfl, [], by simp⟩
  | some g =>
    cases host.arrange with
    | none => exact ⟨rfl, [(Level.warn, "Auto-arrange not available")], rfl⟩
    | some layout => exact ⟨rfl, [], by simp⟩

theorem applyWorkflowToCanvas_messages (host : Host) (ops : List Operation) (w : World) :
    (applyWorkflowToCanvas host ops w).messages = w.messages ++ [appliedMessage] := by
  simp only [applyWorkflowToCanvas, World.addMessage, appliedMessage]
  rw [(arrangeNodes_frame host _).1, (runOperations_frame host _ ops _).1]

/-! ## What the user is told -/

/-- C14, as amended. Operation failures are logged to the console and are not
part of the messages: for every operation list, whether or not an operation
fails, the messages that `applyWorkflowToCanvas` adds are exactly the one
message that the workflow has been applied; an uninstantiable type, an
unresolved reference, a missing slot and a field missing from the widget list
of the node each append a `console.error` entry, and the entries logged by an
operation stay in the console until the end of the run and until the end of
the apply-call. -/
theorem failures_only_logged (host : Host) :
    (∀ (ops : List Operation) (w : World),
      (applyWorkflowToCanvas host ops w).messages = w.messages ++ [appliedMessage]) ∧
    (∀ (p : AddNodeParams) (nodeMap : JsMap Nat) (a : Option Int) (w : World) (g : Graph),
      w.graph = some g → host.createNode p.node_id = none →
      (addNodeToCanvas host p nodeMap a w).1.console =
        w.console ++ [(Level.error, "Failed to create node:")]) ∧
    (∀ (p : LinkNodeParams) (nodeMap : JsMap Nat) (w : World) (g : Graph),
      w.graph = some g →
      (resolveRef nodeMap g p.source_node_id = none ∨
        resolveRef nodeMap g p.target_node_id = none) →
      (linkNodesOnCanvas p nodeMap w).console =
        w.console ++ [(Level.error, "Source or target node not found for linking:")]) ∧
    (∀ (p : LinkNodeParams) (nodeMap : JsMap Nat) (w : World) (g : Graph) (s t : Nat),
      w.graph = some g → resolveRef nodeMap g p.source_node_id = some s →
      resolveRef nodeMap g p.target_node_id = some t →
      (g.findOutputSlot s p.source_output = -1 ∨ g.findInputSlot t p.target_input = -1) →
      (linkNodesOnCanvas p nodeMap w).console =
        w.console ++ [(Level.error, "Could not find slots for connection:")]) ∧
    (∀ (p : SetParamParams) (nodeMap : JsMap Nat) (w : World) (g : Graph),
      w.graph = some g → resolveRef nodeMap g p.node_id = none →
      (setNodeParam p nodeMap w).console =
        w.console ++ [(Level.error, "Node not found for set_param:")]) ∧
    (∀ (p : SetParamParams) (nodeMap : JsMap Nat) (w : World) (g : Graph) (h : Nat)
      (node : Node) (ws : List Widget),
      w.graph = some g → resolveRef nodeMap g p.node_id = some h →
      g.nodes[h]? = some node → node.widgets = some ws →
      (∀ wd ∈ ws, wd.name ≠ p.param_name) →
      (setNodeParam p nodeMap w).console = w.console ++ [(Level.error, "Widget not found:")]) ∧
    (∀ (ids : JsMap Int) (pre post : List Operation) (op : Operation)
      (st0 : World × JsMap Nat),
      ∃ l, (runOperations host ids (pre ++ op :: post) st0).1.console =
        (applyOperation host ids (runOperations host ids pre st0) op).1.console ++ l) ∧
    (∀ (pre post : List Operation) (op : Operation) (w : World),
      ∃ l, (applyWorkflowToCanvas host (pre ++ op :: post) w).console =
        (applyOperation host (buildNodeTypeToId w (pre ++ op :: post))
          (runOperations host (buildNodeTypeToId w (pre ++ op :: post)) pre
            (w, JsMap.empty)) op).1.console ++ l) := by
  refine ⟨applyWorkflowToCanvas_messages host, ?_, ?_, ?_, ?_, ?_, ?_, ?_⟩
  · intro p nodeMap a w g hg hc
    rw [addNodeToCanvas_not_created host p nodeMap a w g hg hc]
    rfl
  · intro p nodeMap w g hg hres
    simp only [linkNodesOnCanvas, hg]
    rcases hres with h | h
    · rw [h]; rfl
    · rw [h]
      cases resolveRef nodeMap g p.source_node_id <;> rfl
  · intro p nodeMap w g s t hg hs ht hslot
    simp only [linkNodesOnCanvas, hg, hs, ht]
    have hcond : ¬ (g.findOutputSlot s p.source_output ≠ -1 ∧
        g.findInputSlot t p.target_input ≠ -1) := by
      intro hc
      rcases hslot with h | h
      · exact hc.1 h
      · exact hc.2 h
    rw [if_neg hcond]
    rfl
  · intro p nodeMap w g hg hres
    simp only [setNodeParam, hg, hres]
    rfl
  · intro p nodeMap w g h node ws hg hres hnode hws hfield
    rw [setNodeParam_not_found p nodeMap w g h node ws hg hres hnode hws hfield]
    rfl
  · intro ids pre post op st0
    rw [runOperations_append, runOperations_cons]
    exact (runOperations_frame host ids post _).2.2
  · intro pre post op w
    obtain ⟨ids, hids⟩ : ∃ ids, ids = buildNodeTypeToId w (pre ++ op :: post) := ⟨_, rfl⟩
    simp only [applyWorkflowToCanvas, World.addMessage, ← hids]
    obtain ⟨l1, hl1⟩ := (arrangeNodes_frame host
      (runOperations host ids (pre ++ op :: post) (w, JsMap.empty)).1).2
    rw [hl1, runOperations_append, runOperations_cons]
    obtain ⟨l2, hl2⟩ := (runOperations_frame host ids post
      (applyOperation host ids (runOperations host ids pre (w, JsMap.empty)) op)).2.2
    rw [hl2]
    exact ⟨l2 ++ l1, by simp⟩

/-- Counterexample to C14 as stated: on an empty graph the only operation, a
link between two nodes that do not exist, fails; the error goes to the console
and the one message added says that the workflow has been applied. -/
theorem errors_reach_caller_counterexample :
    (applyWorkflowToCanvas sampleHost
      [Operation.link_node ⟨"LoadImage", "IMAGE", "SaveImage", "images"⟩] emptyWorld).messages =
      [appliedMessage] ∧
    (applyWorkflowToCanvas sampleHost
      [Operation.link_node ⟨"LoadImage", "IMAGE", "SaveImage", "images"⟩] emptyWorld).console =
      [(Level.error, "Source or target node not found for linking:"),
        (Level.warn, "Auto-arrange not available")] ∧
    (applyWorkflowToCanvas sampleHost
      [Operation.link_node ⟨"LoadImage", "IMAGE", "SaveImage", "images"⟩] emptyWorld).graph =
      some ⟨[], []⟩ := by
  decide

/-! ## Host unavailable -/

/-- C16. Host unavailable: when `app.graph` is not accessible, `executeWorkflow`
applies no operation, for every operation list: the outcome is the same
whatever the list and whatever the host could create, there is still no graph,
and the user is told that the workflow cannot be applied to the canvas. -/
theorem executeWorkflow_host_unavailable (host : Host) (ops : List Operation) (w : World)
    (hnone : w.graph = none) :
    executeWorkflow host (some ops) w =
      (w.warn "ComfyUI app not available, workflow cannot be applied to canvas").addMessage
        "assistant"
        "Workflow generated but cannot be applied to canvas. Please ensure ComfyUI is fully loaded." ∧
    (executeWorkflow host (some ops) w).graph = none ∧
    (executeWorkflow host (some ops) w).messages = w.messages ++
      [("assistant",
        "Workflow generated but cannot be applied to canvas. Please ensure ComfyUI is fully loaded.")] ∧
    (∀ (host2 : Host) (ops2 : List Operation),
      executeWorkflow host2 (some ops2) w = executeWorkflow host (some ops) w) := by
  refine ⟨by simp [executeWorkflow, hnone], by simp [executeWorkflow, hnone, World.warn,
    World.addMessage], by simp [executeWorkflow, hnone, World.warn, World.addMessage], ?_⟩
  intro host2 ops2
  simp [executeWorkflow, hnone]

/-- Instance of C16: with no graph, the sample batch leaves the world without a
graph and adds the message that the workflow cannot be applied. -/
theorem executeWorkflow_host_unavailable_witness :
    unloadedWorld.graph = none ∧
    (executeWorkflow sampleHost (some [Operation.add_node ⟨"LoadImage", none, none⟩])
      unloadedWorld).graph = none ∧
    (executeWorkflow sampleHost (some [Operation.add_node ⟨"LoadImage", none, none⟩])
      unloadedWorld).messages = unloadedWorld.messages ++
      [("assistant",
        "Workflow generated but cannot be applied to canvas. Please ensure ComfyUI is fully loaded.")] :=
  ⟨rfl,
    (executeWorkflow_host_unavailable sampleHost [Operation.add_node ⟨"LoadImage", none, none⟩]
      unloadedWorld rfl).2.1,
    (executeWorkflow_host_unavailable sampleHost [Operation.add_node ⟨"LoadImage", none, none⟩]
      unloadedWorld rfl).2.2.1⟩

/-! ## Post-apply layout -/

theorem applyOperation_host_congr (host host2 : Host) (hc : host.createNode = host2.createNode)
    (ids : JsMap Int) (st : World × JsMap Nat) (op : Operation) :
    applyOperation host ids st op = applyOperation host2 ids st op := by
  cases op <;> simp [applyOperation, addNodeToCanvas, hc]

theorem runOperations_host_congr (host host2 : Host) (hc : host.createNode = host2.createNode)
    (ids : JsMap Int) (ops : List Operation) :
    ∀ st : World × JsMap Nat, runOperations host ids ops st = runOperations host2 ids ops st := by
  induction ops with
  | nil => intro st; rfl
  | cons op rest ih =>
    intro st
    rw [runOperations_cons, runOperations_cons, applyOperation_host_congr host host2 hc, ih]

theorem Graph.arranged_keepLayout (g : Graph) : g.arranged keepLayout = g := by
  have hnodes : (g.arranged keepLayout).nodes = g.nodes := by
    apply List.ext_getElem?
    intro h
    rw [Graph.arranged_getElem?]
    cases hn : g.nodes[h]? with
    | none => rfl
    | some n => simp [keepLayout, hn]
  cases g with
  | mk nodes links =>
    simp only [Graph.arranged] at hnodes ⊢
    rw [hnodes]

theorem arrangeNodes_loaded (host : Host) (w : World) (g : Graph) (hg : w.graph = some g) :
    (arrangeNodes host w).graph =
      some (match host.arrange with
        | some layout => g.arranged layout
        | none => g) ∧
    (arrangeNodes host w).arrangeCalls = w.arrangeCalls + 1 := by
  cases ha : host.arrange with
  | none => simp [arrangeNodes, hg, ha, World.warn]
  | some layout => simp [arrangeNodes, hg, ha]

/-- C17. Post-apply layout is best-effort: on a loaded graph `applyWorkflowToCanvas`
evaluates `app.graph.arrange()` exactly once, for every operation list, and not
while the operations run; the layout is applied to the graph left by the last
operation; and when the host has no auto-arrange the call still ends with the
graph left by the operations and with the same graph and messages as with an
auto-arrange that moves nothing. -/
theorem arrange_is_best_effort (host : Host) (ops : List Operation) (w : World) (g : Graph)
    (hg : w.graph = some g) :
    (applyWorkflowToCanvas host ops w).arrangeCalls = w.arrangeCalls + 1 ∧
    (runOperations host (buildNodeTypeToId w ops) ops (w, JsMap.empty)).1.arrangeCalls =
      w.arrangeCalls ∧
    (∃ g1, (runOperations host (buildNodeTypeToId w ops) ops (w, JsMap.empty)).1.graph =
        some g1 ∧
      (applyWorkflowToCanvas host ops w).graph =
        some (match host.arrange with
          | some layout => g1.arranged layout
          | none => g1)) ∧
    (host.arrange = none →
      (applyWorkflowToCanvas host ops w).graph =
        (applyWorkflowToCanvas { createNode := host.createNode, arrange := some keepLayout }
          ops w).graph ∧
      (applyWorkflowToCanvas host ops w).messages =
        (applyWorkflowToCanvas { createNode := host.createNode, arrange := some keepLayout }
          ops w).messages ∧
      (applyWorkflowToCanvas host ops w).messages = w.messages ++ [appliedMessage]) := by
  obtain ⟨g1, hg1, _, _⟩ :=
    runOperations_inv host (buildNodeTypeToId w ops) ops (w, JsMap.empty) g hg
  obtain ⟨_, hcalls, _⟩ := runOperations_frame host (buildNodeTypeToId w ops) ops (w, JsMap.empty)
  obtain ⟨harr, hcount⟩ := arrangeNodes_loaded host _ g1 hg1
  have hfinal : (applyWorkflowToCanvas host ops w).graph =
      some (match host.arrange with
        | some layout => g1.arranged layout
        | none => g1) := by
    simp only [applyWorkflowToCanvas, World.addMessage]
    exact harr
  refine ⟨?_, hcalls, ⟨g1, hg1, hfinal⟩, ?_⟩
  · simp only [applyWorkflowToCanvas, World.addMessage]
    rw [hcount, hcalls]
  · intro hnone
    refine ⟨?_, ?_, applyWorkflowToCanvas_messages host ops w⟩
    · rw [hfinal, hnone]
      have hg2 : (runOperations { createNode := host.createNode, arrange := some keepLayout }
          (buildNodeTypeToId w ops) ops (w, JsMap.empty)).1.graph = some g1 := by
        rw [← runOperations_host_congr host
          { createNode := host.createNode, arrange := some keepLayout } rfl]
        exact hg1
      have harr2 := (arrangeNodes_loaded
        { createNode := host.createNode, arrange := some keepLayout } _ g1 hg2).1
      simp only [applyWorkflowToCanvas, World.addMessage]
      rw [harr2]
      simp only
      rw [Graph.arranged_keepLayout]
    · rw [applyWorkflowToCanvas_messages, applyWorkflowToCanvas_messages]

/-- Instance of C17: on the empty graph, with a host that has no auto-arrange and
a batch whose only operation fails, the arrange call is counted once and the
graph is the one the operations left. -/
theorem arrange_is_best_effort_witness :
    (applyWorkflowToCanvas sampleHost
      [Operation.link_node ⟨"LoadImage", "IMAGE", "SaveImage", "images"⟩] emptyWorld).arrangeCalls =
      emptyWorld.arrangeCalls + 1 ∧
    (applyWorkflowToCanvas sampleHost
      [Operation.link_node ⟨"LoadImage", "IMAGE", "SaveImage", "images"⟩] emptyWorld).graph =
      some ⟨[], []⟩ :=
  ⟨(arrange_is_best_effort sampleHost
      [Operation.link_node ⟨"LoadImage", "IMAGE", "SaveImage", "images"⟩] emptyWorld ⟨[], []⟩
      rfl).1, by decide⟩

/-! ## Identity assignment is keyed by role -/

/-- C18, as amended. Identity assignment is keyed by role. Let `q` be the last
`add_node` operation of the list with its role, at index `j` among the
`add_node` operations (`l1` are the ones before it, `l2` the ones after it). Then
every `add_node` operation of the list with that role is handed the same
identity, the sum of `getNextAvailableNodeId()` and `j` as line 290 computes it;
in particular an operation whose role is unique in the list and that sits at
index `i` is handed the sum for `i`. That sum is `getNextAvailableNodeId() + j`
whenever `getNextAvailableNodeId() + j` is at most `2^53`. -/
theorem identity_keyed_by_role (w : World) (ops : List Operation)
    (l1 l2 : List AddNodeParams) (q : AddNodeParams)
    (hsplit : addNodeOps ops = l1 ++ q :: l2)
    (hlast : ∀ r ∈ l2, r.node_id ≠ q.node_id) :
    (∀ (i : Nat) (p : AddNodeParams), (addNodeOps ops)[i]? = some p → p.node_id = q.node_id →
      (assignedIds w ops)[i]? =
        some (some (assignedIdAt (getNextAvailableNodeId w) l1.length))) ∧
    ((∀ r ∈ l1, r.node_id ≠ q.node_id) →
      (assignedIds w ops)[l1.length]? =
        some (some (assignedIdAt (getNextAvailableNodeId w) l1.length))) ∧
    (getNextAvailableNodeId w + (l1.length : Int) ≤ 9007199254740992 →
      assignedIdAt (getNextAvailableNodeId w) l1.length =
        getNextAvailableNodeId w + (l1.length : Int)) := by
  have hget : (buildNodeTypeToId w ops).get q.node_id =
      some (assignedIdAt (getNextAvailableNodeId w) l1.length) := by
    rw [buildNodeTypeToId, hsplit]
    exact assignFrom_get_last _ l1 l2 q JsMap.empty hlast
  have hall : ∀ (i : Nat) (p : AddNodeParams), (addNodeOps ops)[i]? = some p →
      p.node_id = q.node_id →
      (assignedIds w ops)[i]? =
        some (some (assignedIdAt (getNextAvailableNodeId w) l1.length)) := by
    intro i p hp hrole
    simp only [assignedIds, List.getElem?_map, hp, Option.map_some']
    rw [hrole, hget]
  refine ⟨hall, ?_, ?_⟩
  · intro _
    apply hall l1.length q _ rfl
    rw [hsplit, List.getElem?_append_right (le_refl _)]
    simp
  · intro hle
    have hpos := one_le_getNextAvailableNodeId w
    exact assignedIdAt_exact _ _ (by omega) hle

/-- Instance of C18: on the sample graph (starting identity `3`), in the batch
`LoadImage`, `SaveImage`, `LoadImage`, the last `LoadImage` is at index `2`, and
both `LoadImage` operations are handed `3 + 2`. -/
theorem identity_keyed_by_role_witness :
    (∀ (i : Nat) (p : AddNodeParams),
      (addNodeOps [Operation.add_node ⟨"LoadImage", none, none⟩,
        Operation.add_node ⟨"SaveImage", none, none⟩,
        Operation.add_node ⟨"LoadImage", none, none⟩])[i]? = some p →
      p.node_id = "LoadImage" →
      (assignedIds imageWorld [Operation.add_node ⟨"LoadImage", none, none⟩,
        Operation.add_node ⟨"SaveImage", none, none⟩,
        Operation.add_node ⟨"LoadImage", none, none⟩])[i]? =
        some (some (assignedIdAt (getNextAvailableNodeId imageWorld) 2))) ∧
    assignedIdAt (getNextAvailableNodeId imageWorld) 2 = 5 :=
  ⟨(identity_keyed_by_role imageWorld
      [Operation.add_node ⟨"LoadImage", none, none⟩,
        Operation.add_node ⟨"SaveImage", none, none⟩,
        Operation.add_node ⟨"LoadImage", none, none⟩]
      [⟨"LoadImage", none, none⟩, ⟨"SaveImage", none, none⟩] [] ⟨"LoadImage", none, none⟩
      rfl (by intro r hr; cases hr)).1, by decide⟩

/-- Counterexample to C18 as stated: the graph has one node, of identity
`2^53 - 1`, so the starting identity is `2^53`. In the batch `LoadImage`,
`SaveImage` each role is unique, and the claim hands `start + 1 = 2^53 + 1` to
`SaveImage` at index `1`; the code hands it `2^53`, the identity it hands to
`LoadImage` as well. -/
theorem identity_keyed_by_role_counterexample :
    getNextAvailableNodeId edgeWorld = 9007199254740992 ∧
    assignedIds edgeWorld
      [Operation.add_node ⟨"LoadImage", none, none⟩,
        Operation.add_node ⟨"SaveImage", none, none⟩] =
      [some 9007199254740992, some 9007199254740992] ∧
    (assignedIds edgeWorld
      [Operation.add_node ⟨"LoadImage", none, none⟩,
        Operation.add_node ⟨"SaveImage", none, none⟩])[1]? ≠
      some (some (getNextAvailableNodeId edgeWorld + 1)) := by
  decide

/-! ## First match wins among graph nodes -/

/-- C19. First match wins: `findExistingNodeById(s)` returns a position exactly
when the node there has `s` as stringified identity or as title and no node
before it has; it returns null exactly when no node of the graph matches; so
when the node at position `a` has the title `String(i)` and a node at a later
position `b` has the identity `i`, the search for `String(i)` ends at or before
`a`, never at `b`, and at `a` itself when no node before `a` matches; a reference with no entry in the batch
namespace resolves to what this search returns. -/
theorem findExistingNodeById_first_match (g : Graph) (s : String) :
    (∀ h : Nat, findExistingNodeById g s = some h ↔
      ((∃ n, g.nodes[h]? = some n ∧ (n.id.toStr = s ∨ n.title = s)) ∧
        ∀ k m, k < h → g.nodes[k]? = some m → ¬ (m.id.toStr = s ∨ m.title = s))) ∧
    (findExistingNodeById g s = none ↔ ∀ n ∈ g.nodes, ¬ (n.id.toStr = s ∨ n.title = s)) ∧
    (∀ (i : Int) (a b : Nat) (na nb : Node), s = toString i → a < b →
      g.nodes[a]? = some na → na.title = toString i →
      g.nodes[b]? = some nb → nb.id = NodeId.num i →
      ∃ h, findExistingNodeById g s = some h ∧ h ≤ a ∧ h ≠ b ∧
        ((∀ k m, k < a → g.nodes[k]? = some m → ¬ (m.id.toStr = s ∨ m.title = s)) → h = a)) ∧
    (∀ nodeMap : JsMap Nat, nodeMap.get s = none →
      resolveRef nodeMap g s = findExistingNodeById g s) := by
  have hiff : ∀ h : Nat, findExistingNodeById g s = some h ↔
      ((∃ n, g.nodes[h]? = some n ∧ (n.id.toStr = s ∨ n.title = s)) ∧
        ∀ k m, k < h → g.nodes[k]? = some m → ¬ (m.id.toStr = s ∨ m.title = s)) := by
    intro h
    constructor
    · intro hf
      obtain ⟨_, ⟨n, hn, hmatch⟩, hbefore⟩ := findExistingFrom_some g.nodes s 0 h hf
      exact ⟨⟨n, by simpa using hn, hmatch⟩, fun k m hk hkm => hbefore k m (by simpa using hk) hkm⟩
    · intro hf
      obtain ⟨⟨n, hn, hmatch⟩, hbefore⟩ := hf
      have := findExistingFrom_first g.nodes s 0 h n hn hmatch hbefore
      simpa [findExistingNodeById] using this
  refine ⟨hiff, findExistingFrom_none g.nodes s 0, ?_, ?_⟩
  rotate_left
  · intro nodeMap hget
    simp only [resolveRef, hget]
  intro i a b na nb hs hab hna hta _ _
  cases hf : findExistingNodeById g s with
  | none =>
    exfalso
    have hno := (findExistingFrom_none g.nodes s 0).mp hf na (List.getElem?_mem hna)
    exact hno (Or.inr (by rw [hta, hs]))
  | some h =>
    obtain ⟨_, hbefore⟩ := (hiff h).mp hf
    have hle : h ≤ a := by
      by_contra hlt
      exact hbefore a na (by omega) hna (Or.inr (by rw [hta, hs]))
    refine ⟨h, rfl, hle, by omega, ?_⟩
    intro hnone
    by_contra hne
    obtain ⟨⟨n, hn, hmatch⟩, _⟩ := (hiff h).mp hf
    exact hnone h n (by omega) hn hmatch

/-! ## The example scenario -/

theorem linkNodesOnCanvas_connects (params : LinkNodeParams) (nodeMap : JsMap Nat)
    (w : World) (g : Graph) (s t : Nat) (sn tn : Node) (hg : w.graph = some g)
    (hs : resolveRef nodeMap g params.source_node_id = some s)
    (ht : resolveRef nodeMap g params.target_node_id = some t)
    (hsn : g.nodes[s]? = some sn) (htn : g.nodes[t]? = some tn)
    (hout : params.source_output ∈ sn.outputs) (hin : params.target_input ∈ tn.inputs) :
    ∃ i j : Nat, sn.outputs[i]? = some params.source_output ∧
      tn.inputs[j]? = some params.target_input ∧
      linkNodesOnCanvas params nodeMap w =
        { w with graph := some { nodes := g.nodes, links := g.links ++ [⟨s, i, t, j⟩] } } := by
  obtain ⟨i, hi, higet⟩ := findSlot_of_mem sn.outputs params.source_output hout
  obtain ⟨j, hj, hjget⟩ := findSlot_of_mem tn.inputs params.target_input hin
  refine ⟨i, j, higet, hjget, ?_⟩
  have ho : g.findOutputSlot s params.source_output = (i : Int) := by
    simp only [Graph.findOutputSlot, hsn]; exact hi
  have hi2 : g.findInputSlot t params.target_input = (j : Int) := by
    simp only [Graph.findInputSlot, htn]; exact hj
  simp only [linkNodesOnCanvas, hg, hs, ht, ho, hi2]
  have hcond : ((i : Int) ≠ -1 ∧ (j : Int) ≠ -1) := by constructor <;> omega
  rw [if_pos hcond]
  simp [Graph.connect]

/-- C15. The example scenario: on an empty graph, with a host that creates
`LoadImage` with an output slot `IMAGE` and `SaveImage` with an input slot
`images`, the batch of the two `add_node` operations followed by the link ends
with exactly two nodes, of identities `1` and `2`, and exactly one connection,
from the `IMAGE` output of the first to the `images` input of the second; no
operation logs an error. -/
theorem example_scenario (host : Host) (w : World) (posA posB : Option Position)
    (parA parB : Option (List (String × Value))) (nL nS : Node)
    (hw : w.graph = some ⟨[], []⟩)
    (hL : host.createNode "LoadImage" = some nL) (hS : host.createNode "SaveImage" = some nS)
    (hout : "IMAGE" ∈ nL.outputs) (hin : "images" ∈ nS.inputs) :
    ∃ (g2 : Graph) (i j : Nat),
      (applyWorkflowToCanvas host
        [Operation.add_node ⟨"LoadImage", posA, parA⟩,
          Operation.add_node ⟨"SaveImage", posB, parB⟩,
          Operation.link_node ⟨"LoadImage", "IMAGE", "SaveImage", "images"⟩] w).graph = some g2 ∧
      g2.nodes.map Node.id = [NodeId.num 1, NodeId.num 2] ∧
      g2.nodes.map Node.type = [nL.type, nS.type] ∧
      nL.outputs[i]? = some "IMAGE" ∧ nS.inputs[j]? = some "images" ∧
      g2.links = [⟨0, i, 1, j⟩] ∧
      (runOperations host
        (buildNodeTypeToId w
          [Operation.add_node ⟨"LoadImage", posA, parA⟩,
            Operation.add_node ⟨"SaveImage", posB, parB⟩,
            Operation.link_node ⟨"LoadImage", "IMAGE", "SaveImage", "images"⟩])
        [Operation.add_node ⟨"LoadImage", posA, parA⟩,
          Operation.add_node ⟨"SaveImage", posB, parB⟩,
          Operation.link_node ⟨"LoadImage", "IMAGE", "SaveImage", "images"⟩]
        (w, JsMap.empty)).1.console = w.console := by
  have hone : toDouble 1 = 1 := by decide
  have hfirst : assignedIdAt 1 0 = 1 := by decide
  have hsecond : assignedIdAt 1 1 = 2 := by decide
  have hstart : getNextAvailableNodeId w = 1 := by simp [getNextAvailableNodeId, hw, hone]
  have hidA : (buildNodeTypeToId w
      [Operation.add_node ⟨"LoadImage", posA, parA⟩,
        Operation.add_node ⟨"SaveImage", posB, parB⟩,
        Operation.link_node ⟨"LoadImage", "IMAGE", "SaveImage", "images"⟩]).get "LoadImage" =
      some 1 := by
    simp [buildNodeTypeToId, addNodeOps, assignFrom, JsMap.get_set, hstart, hfirst]
  have hidB : (buildNodeTypeToId w
      [Operation.add_node ⟨"LoadImage", posA, parA⟩,
        Operation.add_node ⟨"SaveImage", posB, parB⟩,
        Operation.link_node ⟨"LoadImage", "IMAGE", "SaveImage", "images"⟩]).get "SaveImage" =
      some 2 := by
    simp [buildNodeTypeToId, addNodeOps, assignFrom, JsMap.get_set, hstart, hsecond]
  generalize hids : buildNodeTypeToId w
    [Operation.add_node ⟨"LoadImage", posA, parA⟩,
      Operation.add_node ⟨"SaveImage", posB, parB⟩,
      Operation.link_node ⟨"LoadImage", "IMAGE", "SaveImage", "images"⟩] = ids at hidA hidB ⊢
  obtain ⟨a, ha⟩ : ∃ a, a = buildNode ⟨"LoadImage", posA, parA⟩ (some 1) nL := ⟨_, rfl⟩
  obtain ⟨b, hb⟩ : ∃ b, b = buildNode ⟨"SaveImage", posB, parB⟩ (some 2) nS := ⟨_, rfl⟩
  have haid : a.id = NodeId.num 1 := by rw [ha, buildNode_id]
  have hbid : b.id = NodeId.num 2 := by rw [hb, buildNode_id]
  have hatype : a.type = nL.type := by rw [ha]; exact (buildNode_fields _ _ _).2.1
  have hbtype : b.type = nS.type := by rw [hb]; exact (buildNode_fields _ _ _).2.1
  have haout : a.outputs = nL.outputs := by rw [ha]; exact (buildNode_fields _ _ _).2.2.2
  have hbin : b.inputs = nS.inputs := by rw [hb]; exact (buildNode_fields _ _ _).2.2.1
  -- the two nodes are created
  obtain ⟨st2, hst2⟩ : ∃ st2, st2 = runOperations host ids
      [Operation.add_node ⟨"LoadImage", posA, parA⟩,
        Operation.add_node ⟨"SaveImage", posB, parB⟩] (w, JsMap.empty) := ⟨_, rfl⟩
  have hst2eq : st2 = ({ w with graph := some ⟨[a, b], []⟩ },
      (((((JsMap.empty : JsMap Nat).set "LoadImage" 0).set "1" 0).set "SaveImage" 1).set
        "2" 1)) := by
    rw [hst2]
    simp only [runOperations, List.foldl_cons, List.foldl_nil, applyOperation, hidA, hidB]
    rw [addNodeToCanvas_created host ⟨"LoadImage", posA, parA⟩ _ _ _ ⟨[], []⟩ nL hw hL, ← ha]
    rw [addNodeToCanvas_created host ⟨"SaveImage", posB, parB⟩ _ _ _ ⟨[a], []⟩ nS rfl hS, ← hb]
    rw [haid, hbid]
    rfl
  have hg2 : st2.1.graph = some ⟨[a, b], []⟩ := by rw [hst2eq]
  have hsrc : resolveRef st2.2 ⟨[a, b], []⟩ "LoadImage" = some 0 := by
    rw [hst2eq]
    simp [resolveRef, JsMap.get_set]
  have htgt : resolveRef st2.2 ⟨[a, b], []⟩ "SaveImage" = some 1 := by
    rw [hst2eq]
    simp [resolveRef, JsMap.get_set]
  obtain ⟨i, j, hi, hj, hlink⟩ := linkNodesOnCanvas_connects
    ⟨"LoadImage", "IMAGE", "SaveImage", "images"⟩ st2.2 st2.1 ⟨[a, b], []⟩ 0 1 a b hg2 hsrc htgt
    rfl rfl (by rw [haout]; exact hout) (by rw [hbin]; exact hin)
  rw [haout] at hi
  rw [hbin] at hj
  have hrun : runOperations host ids
      [Operation.add_node ⟨"LoadImage", posA, parA⟩,
        Operation.add_node ⟨"SaveImage", posB, parB⟩,
        Operation.link_node ⟨"LoadImage", "IMAGE", "SaveImage", "images"⟩] (w, JsMap.empty) =
      (linkNodesOnCanvas ⟨"LoadImage", "IMAGE", "SaveImage", "images"⟩ st2.2 st2.1, st2.2) := by
    rw [hst2]
    rfl
  have hg3 : (runOperations host ids
      [Operation.add_node ⟨"LoadImage", posA, parA⟩,
        Operation.add_node ⟨"SaveImage", posB, parB⟩,
        Operation.link_node ⟨"LoadImage", "IMAGE", "SaveImage", "images"⟩]
      (w, JsMap.empty)).1.graph = some ⟨[a, b], [⟨0, i, 1, j⟩]⟩ := by
    rw [hrun, hlink]
    rfl
  obtain ⟨g4, hg4, hlinks, hids4, htypes4, _⟩ := arrangeNodes_graph host _ _ hg3
  refine ⟨g4, i, j, ?_, ?_, ?_, hi, hj, ?_, ?_⟩
  · simp only [applyWorkflowToCanvas, World.addMessage, hids]
    exact hg4
  · rw [hids4]
    simp [haid, hbid]
  · rw [htypes4]
    simp [hatype, hbtype]
  · rw [hlinks]
  · rw [hrun, hlink, hst2eq]

/-- Instance of C15: the sample host on the empty graph; the connection goes from
slot `0` of the first node to slot `0` of the second. -/
theorem example_scenario_witness :
    (∃ (g2 : Graph) (i j : Nat),
      (applyWorkflowToCanvas sampleHost
        [Operation.add_node ⟨"LoadImage", none, none⟩,
          Operation.add_node ⟨"SaveImage", none, none⟩,
          Operation.link_node ⟨"LoadImage", "IMAGE", "SaveImage", "images"⟩]
        emptyWorld).graph = some g2 ∧
      g2.nodes.map Node.id = [NodeId.num 1, NodeId.num 2] ∧
      g2.nodes.map Node.type = ["LoadImage", "SaveImage"] ∧
      ["IMAGE", "MASK"][i]? = some "IMAGE" ∧ ["images"][j]? = some "images" ∧
      g2.links = [⟨0, i, 1, j⟩] ∧
      (runOperations sampleHost
        (buildNodeTypeToId emptyWorld
          [Operation.add_node ⟨"LoadImage", none, none⟩,
            Operation.add_node ⟨"SaveImage", none, none⟩,
            Operation.link_node ⟨"LoadImage", "IMAGE", "SaveImage", "images"⟩])
        [Operation.add_node ⟨"LoadImage", none, none⟩,
          Operation.add_node ⟨"SaveImage", none, none⟩,
          Operation.link_node ⟨"LoadImage", "IMAGE", "SaveImage", "images"⟩]
        (emptyWorld, JsMap.empty)).1.console = emptyWorld.console) ∧
    (applyWorkflowToCanvas sampleHost
      [Operation.add_node ⟨"LoadImage", none, none⟩,
        Operation.add_node ⟨"SaveImage", none, none⟩,
        Operation.link_node ⟨"LoadImage", "IMAGE", "SaveImage", "images"⟩]
      emptyWorld).graph.map Graph.links = some [⟨0, 0, 1, 0⟩] :=
  ⟨example_scenario sampleHost emptyWorld none none none none
    (sampleNode "LoadImage" "Load Image" ["image"] ["IMAGE", "MASK"])
    (sampleNode "SaveImage" "Save Image" ["images"] []) rfl (by decide) (by decide)
    (by decide) (by decide), by decide⟩

/-! ## Role rebinding -/

theorem applyOperation_get_ne_none (host : Host) (ids : JsMap Int) (st : World × JsMap Nat)
    (op : Operation) (key : String) (hkey : st.2.get key ≠ none) :
    (applyOperation host ids st op).2.get key ≠ none := by
  cases op with
  | add_node p =>
    simp only [applyOperation, addNodeToCanvas]
    cases st.1.graph with
    | none => exact hkey
    | some g =>
      simp only
      cases host.createNode p.node_id with
      | none => exact hkey
      | some created =>
        simp only [JsMap.get_set]
        split
        · simp
        · split
          · simp
          · exact hkey
  | link_node p => exact hkey
  | set_param p => exact hkey
  | unknown name => exact hkey

theorem runOperations_get_ne_none (host : Host) (ids : JsMap Int) (key : String)
    (ops : List Operation) :
    ∀ st : World × JsMap Nat, st.2.get key ≠ none →
      (runOperations host ids ops st).2.get key ≠ none := by
  induction ops with
  | nil => intro st h; exact h
  | cons op rest ih =>
    intro st h
    rw [runOperations_cons]
    exact ih _ (applyOperation_get_ne_none host ids st op key h)

theorem runOperations_add_registers (host : Host) (ids : JsMap Int) (pre post : List Operation)
    (p : AddNodeParams) (created : Node) (st0 : World × JsMap Nat) (g0 : Graph)
    (hg0 : st0.1.graph = some g0) (hc : host.createNode p.node_id = some created) :
    ∃ g1 g2 n,
      (runOperations host ids pre st0).1.graph = some g1 ∧ g0.Extends g1 ∧
      (runOperations host ids (pre ++ Operation.add_node p :: post) st0).1.graph = some g2 ∧
      g1.Extends g2 ∧ g1.nodes.length < g2.nodes.length ∧
      g2.nodes[g1.nodes.length]? = some n ∧ n.type = created.type ∧
      (∃ h, (runOperations host ids (pre ++ Operation.add_node p :: post) st0).2.get p.node_id =
        some h ∧ g1.nodes.length ≤ h ∧ h < g2.nodes.length) ∧
      ((∀ q ∈ addNodeOps post, ∀ cr, host.createNode q.node_id = some cr →
          q.node_id ≠ p.node_id ∧
          (buildNode q (ids.get q.node_id) cr).id.toStr ≠ p.node_id) →
        (runOperations host ids (pre ++ Operation.add_node p :: post) st0).2.get p.node_id =
          some g1.nodes.length) := by
  obtain ⟨g1, hg1, hext1, _⟩ := runOperations_inv host ids pre st0 g0 hg0
  obtain ⟨st1, hst1⟩ : ∃ st1, st1 = runOperations host ids pre st0 := ⟨_, rfl⟩
  rw [← hst1] at hg1
  obtain ⟨st2, hst2⟩ : ∃ st2, st2 = applyOperation host ids st1 (Operation.add_node p) :=
    ⟨_, rfl⟩
  have hstep : st2 =
      ({ st1.1 with graph := some (g1.add (buildNode p (ids.get p.node_id) created)) },
        (st1.2.set p.node_id g1.nodes.length).set
          (buildNode p (ids.get p.node_id) created).id.toStr g1.nodes.length) := by
    rw [hst2]
    simp only [applyOperation]
    rw [addNodeToCanvas_created host p _ _ _ g1 created hg1 hc]
  have hgraph2 : st2.1.graph = some (g1.add (buildNode p (ids.get p.node_id) created)) := by
    rw [hstep]
  have hmap : st2.2.get p.node_id = some g1.nodes.length := by
    rw [hstep]
    simp only [JsMap.get_set]
    split <;> simp
  have hrun : runOperations host ids (pre ++ Operation.add_node p :: post) st0 =
      runOperations host ids post st2 := by
    rw [runOperations_append, runOperations_cons, ← hst1, ← hst2]
  rw [hrun]
  obtain ⟨g2, hg2, hext, hbound⟩ := runOperations_inv host ids post st2 _ hgraph2
  have hnew : (g1.add (buildNode p (ids.get p.node_id) created)).nodes[g1.nodes.length]? =
      some (buildNode p (ids.get p.node_id) created) := by
    simp [Graph.add]
  obtain ⟨n, hn, _, _, hntype, _, _⟩ := hext.2 _ _ hnew
  have hlen1 : (g1.add (buildNode p (ids.get p.node_id) created)).nodes.length =
      g1.nodes.length + 1 := by simp [Graph.add]
  have hlen : g1.nodes.length < g2.nodes.length := by
    have h2 := hext.1
    omega
  refine ⟨g1, g2, n, by rw [← hst1]; exact hg1, hext1, hg2,
    (Graph.extends_add g1 _).trans hext, hlen, hn, ?_, ?_, ?_⟩
  · rw [hntype, (buildNode_fields p _ created).2.1]
  · have hsome := runOperations_get_ne_none host ids p.node_id post st2 (by rw [hmap]; simp)
    obtain ⟨h, hh⟩ := Option.ne_none_iff_exists'.mp hsome
    refine ⟨h, hh, ?_⟩
    rcases hbound p.node_id h hh with hold | ⟨hge, hlt⟩
    · rw [hmap] at hold
      injection hold with hold
      omega
    · omega
  · intro hpost
    rw [runOperations_get_preserved host ids p.node_id post st2 _ hgraph2 hpost, hmap]

/-- C20, as amended. Role rebinding: in a batch with two `add_node` operations of the same
role `R` that the host instantiates, the earlier creating the node at position
`g1.nodes.length` and the later the node at position `g2.nodes.length`: for the
operations that follow, the key `R` of the namespace is bound, and the
reference `R` resolves, to the later node or to a node added after it, never to
the earlier node; and it is the later node exactly, as long as no `add_node`
after it that the host can instantiate has `R` as its role or as its
stringified identity. -/
theorem role_rebinding (host : Host) (w0 : World) (g0 : Graph)
    (pre mid post : List Operation) (p1 p2 : AddNodeParams) (created : Node) (ids : JsMap Int)
    (hids : ids = buildNodeTypeToId w0
      ((pre ++ Operation.add_node p1 :: mid) ++ Operation.add_node p2 :: post))
    (hg0 : w0.graph = some g0)
    (hrole : p1.node_id = p2.node_id)
    (hc : host.createNode p2.node_id = some created) :
    ∃ g1 g2 gf n1 n2,
      (runOperations host ids pre (w0, JsMap.empty)).1.graph = some g1 ∧
      (runOperations host ids (pre ++ Operation.add_node p1 :: mid)
        (w0, JsMap.empty)).1.graph = some g2 ∧
      (runOperations host ids ((pre ++ Operation.add_node p1 :: mid) ++
        Operation.add_node p2 :: post) (w0, JsMap.empty)).1.graph = some gf ∧
      g1.nodes.length < g2.nodes.length ∧
      gf.nodes[g1.nodes.length]? = some n1 ∧ n1.type = created.type ∧
      gf.nodes[g2.nodes.length]? = some n2 ∧ n2.type = created.type ∧
      (∃ h, resolveRef (runOperations host ids ((pre ++ Operation.add_node p1 :: mid) ++
          Operation.add_node p2 :: post) (w0, JsMap.empty)).2 gf p2.node_id = some h ∧
        g2.nodes.length ≤ h ∧ h < gf.nodes.length) ∧
      resolveRef (runOperations host ids ((pre ++ Operation.add_node p1 :: mid) ++
        Operation.add_node p2 :: post) (w0, JsMap.empty)).2 gf p2.node_id ≠
          some g1.nodes.length ∧
      ((∀ q ∈ addNodeOps post, host.createNode q.node_id ≠ none →
          q.node_id ≠ p2.node_id ∧ ∀ j, ids.get q.node_id = some j → toString j ≠ p2.node_id) →
        (runOperations host ids ((pre ++ Operation.add_node p1 :: mid) ++
          Operation.add_node p2 :: post) (w0, JsMap.empty)).2.get p2.node_id =
            some g2.nodes.length ∧
        resolveRef (runOperations host ids ((pre ++ Operation.add_node p1 :: mid) ++
          Operation.add_node p2 :: post) (w0, JsMap.empty)).2 gf p2.node_id =
            some g2.nodes.length) := by
  have hc1 : host.createNode p1.node_id = some created := by rw [hrole]; exact hc
  -- the first node
  obtain ⟨g1, g2, m1, hg1, _, hg2, _, hlt12, hm1, hm1type, _, _⟩ :=
    runOperations_add_registers host ids pre [] p1 created (w0, JsMap.empty) g0 hg0 hc1
  -- the second node and the operations after it
  obtain ⟨g3, gf, n2, hg3, hext03, hgf, hext3f, hlt3f, hn2, hn2type, ⟨h, hget, hge, hlt⟩,
      hexact⟩ :=
    runOperations_add_registers host ids (pre ++ Operation.add_node p1 :: mid) post p2 created
      (w0, JsMap.empty) g0 hg0 hc
  -- the graph after the first node and the operations between the two
  have hrun3 : runOperations host ids (pre ++ Operation.add_node p1 :: mid) (w0, JsMap.empty) =
      runOperations host ids mid
        (runOperations host ids (pre ++ [Operation.add_node p1]) (w0, JsMap.empty)) := by
    rw [← runOperations_append]
    simp
  have hg2b : (runOperations host ids (pre ++ [Operation.add_node p1])
      (w0, JsMap.empty)).1.graph = some g2 := hg2
  obtain ⟨g3b, hg3b, hext23, _⟩ := runOperations_inv host ids mid _ g2 hg2b
  rw [← hrun3, hg3] at hg3b
  injection hg3b with hg3b
  subst hg3b
  have hlt13 : g1.nodes.length < g3.nodes.length := lt_of_lt_of_le hlt12 hext23.1
  obtain ⟨m3, hm3, _, _, hm3type, _, _⟩ := hext23.2 _ _ hm1
  obtain ⟨n1, hn1, _, _, hn1type, _, _⟩ := hext3f.2 _ _ hm3
  refine ⟨g1, g3, gf, n1, n2, hg1, hg3, hgf, hlt13, hn1, ?_, hn2, hn2type, ?_, ?_, ?_⟩
  · rw [hn1type, hm3type, hm1type]
  · exact ⟨h, by simp only [resolveRef, hget], hge, hlt⟩
  · simp only [resolveRef, hget]
    intro hc2
    injection hc2 with hc2
    omega
  · intro hpost
    have hpost2 : ∀ q ∈ addNodeOps post, ∀ cr, host.createNode q.node_id = some cr →
        q.node_id ≠ p2.node_id ∧
        (buildNode q (ids.get q.node_id) cr).id.toStr ≠ p2.node_id := by
      intro q hq cr hcr
      obtain ⟨h1, h2⟩ := hpost q hq (by rw [hcr]; simp)
      have hsome : ids.get q.node_id ≠ none := by
        rw [hids]
        apply buildNodeTypeToId_get_ne_none
        rw [addNodeOps_append, addNodeOps_cons_add]
        exact List.mem_append_right _ (List.mem_cons_of_mem _ hq)
      obtain ⟨j, hj⟩ := Option.ne_none_iff_exists'.mp hsome
      rw [buildNode_id, hj]
      exact ⟨h1, h2 j hj⟩
    have hget2 := hexact hpost2
    exact ⟨hget2, by simp only [resolveRef, hget2]⟩

/-- Instance of C20: on the empty graph, after two `add_node` operations of role
`LoadImage` the `set_param` that follows and names `LoadImage` sets the widget
of the second node and leaves the first as it was created. -/
theorem role_rebinding_witness :
    (∃ (g1 g2 gf : Graph) (n1 n2 : Node),
      (runOperations sampleHost
        (buildNodeTypeToId emptyWorld
          (([] ++ Operation.add_node ⟨"LoadImage", none, none⟩ :: []) ++
            Operation.add_node ⟨"LoadImage", none, none⟩ ::
              [Operation.set_param ⟨"LoadImage", "seed", Value.num 9⟩]))
        (([] ++ Operation.add_node ⟨"LoadImage", none, none⟩ :: []) ++
          Operation.add_node ⟨"LoadImage", none, none⟩ ::
            [Operation.set_param ⟨"LoadImage", "seed", Value.num 9⟩])
        (emptyWorld, JsMap.empty)).1.graph = some gf ∧
      g1.nodes.length < g2.nodes.length ∧
      gf.nodes[g1.nodes.length]? = some n1 ∧ gf.nodes[g2.nodes.length]? = some n2 ∧
      resolveRef (runOperations sampleHost
        (buildNodeTypeToId emptyWorld
          (([] ++ Operation.add_node ⟨"LoadImage", none, none⟩ :: []) ++
            Operation.add_node ⟨"LoadImage", none, none⟩ ::
              [Operation.set_param ⟨"LoadImage", "seed", Value.num 9⟩]))
        (([] ++ Operation.add_node ⟨"LoadImage", none, none⟩ :: []) ++
          Operation.add_node ⟨"LoadImage", none, none⟩ ::
            [Operation.set_param ⟨"LoadImage", "seed", Value.num 9⟩])
        (emptyWorld, JsMap.empty)).2 gf "LoadImage" ≠ some g1.nodes.length) ∧
    (applyWorkflowToCanvas sampleHost
      [Operation.add_node ⟨"LoadImage", none, none⟩,
        Operation.add_node ⟨"LoadImage", none, none⟩,
        Operation.set_param ⟨"LoadImage", "seed", Value.num 9⟩]
      emptyWorld).graph.map (fun g => g.nodes.map Node.widgets) =
      some [some [⟨"seed", Value.num 0⟩], some [⟨"seed", Value.num 9⟩]] := by
  refine ⟨?_, by decide⟩
  obtain ⟨g1, g2, gf, n1, n2, _, _, hgf, hlt, hn1, _, hn2, _, _, hne, _⟩ :=
    role_rebinding sampleHost emptyWorld ⟨[], []⟩ [] []
      [Operation.set_param ⟨"LoadImage", "seed", Value.num 9⟩]
      ⟨"LoadImage", none, none⟩ ⟨"LoadImage", none, none⟩
      (sampleNode "LoadImage" "Load Image" ["image"] ["IMAGE", "MASK"]) _ rfl rfl rfl
      (by decide)
  exact ⟨g1, g2, gf, n1, n2, hgf, hlt, hn1, hn2, hne⟩

/-- Counterexample to C20 as stated: on the empty graph the batch has three
`add_node` operations of role `LoadImage`, then a `set_param` that names
`LoadImage`. The first two have both succeeded, creating the nodes at positions
`0` and `1`, and the later of the two is at position `1`; but when the
`set_param` runs the key `LoadImage` is bound to position `2`, and the widget it
sets is the one of the third node, the second node keeping its value. -/
theorem role_rebinding_counterexample :
    (runOperations sampleHost
      (buildNodeTypeToId emptyWorld
        [Operation.add_node ⟨"LoadImage", none, none⟩,
          Operation.add_node ⟨"LoadImage", none, none⟩,
          Operation.add_node ⟨"LoadImage", none, none⟩,
          Operation.set_param ⟨"LoadImage", "seed", Value.num 9⟩])
      [Operation.add_node ⟨"LoadImage", none, none⟩,
        Operation.add_node ⟨"LoadImage", none, none⟩]
      (emptyWorld, JsMap.empty)).1.graph.map (fun g => g.nodes.length) = some 2 ∧
    (runOperations sampleHost
      (buildNodeTypeToId emptyWorld
        [Operation.add_node ⟨"LoadImage", none, none⟩,
          Operation.add_node ⟨"LoadImage", none, none⟩,
          Operation.add_node ⟨"LoadImage", none, none⟩,
          Operation.set_param ⟨"LoadImage", "seed", Value.num 9⟩])
      [Operation.add_node ⟨"LoadImage", none, none⟩,
        Operation.add_node ⟨"LoadImage", none, none⟩]
      (emptyWorld, JsMap.empty)).2.get "LoadImage" = some 1 ∧
    (runOperations sampleHost
      (buildNodeTypeToId emptyWorld
        [Operation.add_node ⟨"LoadImage", none, none⟩,
          Operation.add_node ⟨"LoadImage", none, none⟩,
          Operation.add_node ⟨"LoadImage", none, none⟩,
          Operation.set_param ⟨"LoadImage", "seed", Value.num 9⟩])
      [Operation.add_node ⟨"LoadImage", none, none⟩,
        Operation.add_node ⟨"LoadImage", none, none⟩,
        Operation.add_node ⟨"LoadImage", none, none⟩]
      (emptyWorld, JsMap.empty)).2.get "LoadImage" = some 2 ∧
    (applyWorkflowToCanvas sampleHost
      [Operation.add_node ⟨"LoadImage", none, none⟩,
        Operation.add_node ⟨"LoadImage", none, none⟩,
        Operation.add_node ⟨"LoadImage", none, none⟩,
        Operation.set_param ⟨"LoadImage", "seed", Value.num 9⟩]
      emptyWorld).graph.map (fun g => g.nodes.map Node.widgets) =
      some [some [⟨"seed", Value.num 0⟩], some [⟨"seed", Value.num 0⟩],
        some [⟨"seed", Value.num 9⟩]] := by
  decide

end OneFlow
